import Mathlib

/-!
Verification of the AeroAgent runway/gate scheduling system.

This file shallowly embeds the core of the system:
* the decentralized event-driven agent simulation
  (`aiops/agents/core.py`, `aiops/agents/agents.py`, `aiops/orchestrator/sim.py`);
* the centralized constraint scheduler model and its solution extraction
  (`aiops/optimization/schedulers.py`).

Conventions of the embedding:
* Python floats are modelled as rationals (`ℚ`); `int(x)` conversion is
  truncation toward zero (`pyTrunc`).
* Python dicts with insertion order are modelled as association lists
  (`List (key × value)`); dicts used purely as finite maps are modelled
  as `String → Option ℚ`.
* The event bus is synchronous: `publish` appends to the log and then runs
  the handlers, so the handler cascade of each publication is inlined at
  its publication site, in subscription order.
* The MILP solver is an external dependency; a candidate solution is a
  Boolean valuation of the binary variables, the constraint system is a
  predicate on valuations, and the post-solve extraction is a pure
  function of the solver status and the valuation.
-/

/-! ## Data model -/

/-- Aircraft size class / gate compatibility class (`NARROW`/`WIDE` strings). -/
inductive AClass where
  | NARROW
  | WIDE
deriving DecidableEq, Repr

/-- One row of the flights frame: columns `flight_id`, `sched_min`, `op`, `aircraft`
(`data_sources.py`). -/
structure Flight where
  flight_id : String
  sched_min : ℕ
  op : String
  aircraft : AClass
deriving DecidableEq, Repr

instance : Inhabited Flight := ⟨⟨"", 0, "", .NARROW⟩⟩

/-- One row of the gates frame: columns `gate_id`, `compatible`. -/
structure Gate where
  gate_id : String
  compatible : AClass
deriving DecidableEq, Repr

/-- One row of the weather frame: columns `minute`, `wind`, `rain` (rain is 0/1). -/
structure WeatherSample where
  minute : ℕ
  wind : ℚ
  rain : Bool
deriving DecidableEq, Repr

/-- Events published on the bus (`core.py` `Event`), one constructor per kind,
with the payload fields of `agents.py`. -/
inductive Ev where
  | weatherUpd (wind : ℚ) (rain : Bool) (t : ℕ)
  | flightReq (fid : String) (op : String) (schedMin : ℕ) (t : ℕ)
  | runwayAssigned (fid : String) (rwy : String) (slot : ℕ) (t : ℕ)
  | runwayDeferred (fid : String) (deltaSlots : ℕ) (t : ℕ)
  | gateAssigned (fid : String) (gate : String) (slot : ℕ) (t : ℕ)
deriving DecidableEq, Repr

/-- The configuration dataclass of `config.py`, with its default values. -/
structure Config where
  num_flights : ℕ := 40
  num_runways : ℕ := 2
  num_gates : ℕ := 10
  seed : ℕ := 42
  time_slot_minutes : ℕ := 5
  planning_horizon_minutes : ℕ := 240
  base_delay_mean : ℚ := 3
  base_delay_std : ℚ := 4
  weather_delay_multiplier : ℚ := 3/2
  delay_alert_threshold : ℕ := 15
  runway_separation_minutes : ℕ := 5
  gate_turnaround_minutes : ℕ := 15
  enable_runway_separation : Bool := false
  enable_gate_turnaround : Bool := false
deriving DecidableEq, Repr

/-- Python `int(q)` on a float: truncation toward zero. -/
def pyTrunc (q : ℚ) : ℤ :=
  if 0 ≤ q then ⌊q⌋ else -⌊-q⌋

/-- Python `range(0, stop, step)` for positive step. -/
def pyRange (stop step : ℕ) : List ℕ :=
  (List.range ((stop + step - 1) / step)).map (fun k => k * step)

/-! ## Decentralized path: agent simulation

The mutable state shared by the four agents in one `Simulation` run.
`bias` and `wxExtra` live in the `FlightAgent`, `occupied` in the
`RunwayAgent`, `gateOcc` in the `GateAgent`, `log` in the `EventBus`. -/

structure SimState where
  bias : String → Option ℚ
  wxExtra : ℚ
  occupied : List ((ℕ × String) × String)
  gateOcc : List ((ℕ × String) × String)
  log : List Ev

/-- Fresh state with a seeded bias map (`FlightAgent.__init__` copies the
seed dict; `wx_extra_delay_min` starts at `0.0`; occupancy maps and log empty). -/
def seedState (b : String → Option ℚ) : SimState :=
  ⟨b, 0, [], [], []⟩

/-- `RunwayAgent.__init__` stores the runway list exactly as given
(`self.runways = runways`, no substitution for an empty list). -/
def runwayAgentRunways (runways : List String) : List String :=
  runways

/-- `GateAgent.__init__`: `list(gates["gate_id"]) if not gates.empty else ["G-1"]`. -/
def gateAgentGates (gates : List Gate) : List String :=
  if gates.isEmpty then ["G-1"] else gates.map (fun g0 => g0.gate_id)

/-- The candidate (slot, resource) pairs tried by `RunwayAgent.on_request` and
`GateAgent.on_runway_assigned`: slots `[s, s+1, s+2]`, inside each slot the
resources in list order. -/
def candPairs (s0 : ℕ) (res : List String) : List (ℕ × String) :=
  [s0, s0 + 1, s0 + 2].flatMap (fun s => res.map (fun r => (s, r)))

/-- Key-absence test `(s, r) not in self.occupied`. -/
def isFree (occ : List ((ℕ × String) × String)) (k : ℕ × String) : Bool :=
  !(occ.any (fun e => e.1 == k))

/-- `FlightAgent.on_deferred`: `bias[fid] = bias.get(fid, 0.0) + delta_slots * 5 * 0.5`. -/
def onDeferred (b : String → Option ℚ) (fid : String) (deltaSlots : ℕ) :
    String → Option ℚ :=
  fun f => if f = fid then some ((b fid).getD 0 + deltaSlots * 5 * (1/2)) else b f

/-- `GateAgent.on_runway_assigned`: search `[slot, slot+1, slot+2]` across the
gate list for the first free pair; occupy it and publish `gate.assigned`, else drop. -/
def onRunwayAssigned (gates : List String) (st : SimState) (fid : String)
    (slot : ℕ) (t : ℕ) : SimState :=
  match (candPairs slot gates).find? (isFree st.gateOcc) with
  | none => st
  | some (s, g0) =>
    { st with
      gateOcc := st.gateOcc ++ [((s, g0), fid)]
      log := st.log ++ [.gateAssigned fid g0 s t] }

/-- `RunwayAgent.on_request` together with the handler cascade it triggers:
requested slot is `sched_min // 5`; the first free pair of
`candPairs` is occupied; `runway.assigned` is published (synchronously handled
by `GateAgent.on_runway_assigned`); if the granted slot is strictly later,
`runway.deferred` is published (synchronously handled by
`FlightAgent.on_deferred`).  If no pair is free the request is dropped. -/
def onRequest (runways gates : List String) (st : SimState) (fid : String)
    (reqMin : ℕ) (t : ℕ) : SimState :=
  match (candPairs (reqMin / 5) runways).find? (isFree st.occupied) with
  | none => st
  | some (s, r) =>
    let st2 := onRunwayAssigned gates
      { st with
        occupied := st.occupied ++ [((s, r), fid)]
        log := st.log ++ [.runwayAssigned fid r s t] } fid s t
    if reqMin / 5 < s then
      { st2 with
        log := st2.log ++ [.runwayDeferred fid (s - reqMin / 5) t]
        bias := onDeferred st2.bias fid (s - reqMin / 5) }
    else st2

/-- The effective requested minute computed by `FlightAgent.step`:
`max(0, int(sched_min) + int(delays.get(fid, 0)) + int(bias.get(fid, 0)) + int(wx_extra))`. -/
def requestedMinute (schedMin : ℕ) (delay bias wx : ℚ) : ℕ :=
  ((schedMin : ℤ) + pyTrunc delay + pyTrunc bias + pyTrunc wx).toNat

/-- Window filter of `FlightAgent.step`: `sched_min >= t and sched_min < t + 10`. -/
def inWindow (t : ℕ) (fl : Flight) : Bool :=
  t ≤ fl.sched_min && fl.sched_min < t + 10

/-- The effective requested minute of one flight in the current state
(`req_sched` in `FlightAgent.step`). -/
def reqMinuteOf (delays : String → Option ℚ) (st : SimState) (fl : Flight) : ℕ :=
  requestedMinute fl.sched_min ((delays fl.flight_id).getD 0)
    ((st.bias fl.flight_id).getD 0) st.wxExtra

/-- One loop iteration of `FlightAgent.step`: publish `flight.request`
(synchronously handled by `RunwayAgent.on_request`). -/
def processFlight (delays : String → Option ℚ) (runways gates : List String)
    (t : ℕ) (st : SimState) (fl : Flight) : SimState :=
  onRequest runways gates
    { st with log := st.log ++ [.flightReq fl.flight_id fl.op (reqMinuteOf delays st fl) t] }
    fl.flight_id (reqMinuteOf delays st fl) t

/-- `FlightAgent.step`: iterate over the flights scheduled within `[t, t+10)`. -/
def flightStep (flights : List Flight) (delays : String → Option ℚ)
    (runways gates : List String) (t : ℕ) (st : SimState) : SimState :=
  (flights.filter (inWindow t)).foldl (processFlight delays runways gates t) st

/-- `WeatherAgent.step` plus the `weather.update` handler
`FlightAgent.on_weather`: sample index `min(len(weather) - 1, t // 5)`,
extra delay `2.0` on rain else `0.0`.  (On an empty weather frame the source
would raise; here the tick is a no-op.) -/
def weatherStep (weather : List WeatherSample) (t : ℕ) (st : SimState) : SimState :=
  match weather[min (weather.length - 1) (t / 5)]? with
  | none => st
  | some w =>
    { st with
      log := st.log ++ [.weatherUpd w.wind w.rain t]
      wxExtra := if w.rain then 2 else 0 }

/-- One simulation tick (`Simulation.run` loop body): the `WeatherAgent` steps,
then the `FlightAgent`; runway and gate agents react only through events. -/
def simTick (flights : List Flight) (delays : String → Option ℚ)
    (weather : List WeatherSample) (runways gates : List String)
    (t : ℕ) (st : SimState) : SimState :=
  flightStep flights delays runways gates t (weatherStep weather t st)

/-- `Simulation.run` / one episode of `run_with_learning`: tick over
`range(0, horizon_minutes, step_minutes)` starting from a state seeded with
the carried bias map. -/
def simRun (flights : List Flight) (delays : String → Option ℚ)
    (weather : List WeatherSample) (runways : List String) (gates : List Gate)
    (horizon step : ℕ) (b : String → Option ℚ) : SimState :=
  (pyRange horizon step).foldl
    (fun st t =>
      simTick flights delays weather (runwayAgentRunways runways) (gateAgentGates gates) t st)
    (seedState b)

/-- Aggregation at the end of `Simulation.run`: one assignment row
`(flight_id, runway_id, slot)` per entry of the runway occupancy map. -/
def assignmentsTable (st : SimState) : List (String × String × ℕ) :=
  st.occupied.map (fun e => (e.2, e.1.2, e.1.1))

/-- The per-episode regenerated inputs of `run_with_learning`. -/
structure EpisodeData where
  flights : List Flight
  delays : String → Option ℚ
  weather : List WeatherSample
  runways : List String
  gates : List Gate

/-- Python `dict.update`: keys of the second map override, others persist. -/
def pyDictUpdate (b b2 : String → Option ℚ) : String → Option ℚ :=
  fun f => match b2 f with
  | some v => some v
  | none => b f

/-- One episode of `Simulation.run_with_learning`: run a fresh simulation
seeded with the carried bias, then merge the episode-final bias back with
`bias.update(flights.bias)`. -/
def runEpisode (d : EpisodeData) (horizon step : ℕ) (b : String → Option ℚ) :
    String → Option ℚ :=
  pyDictUpdate b (simRun d.flights d.delays d.weather d.runways d.gates horizon step b).bias

/-- `Simulation.run_with_learning`: fold the episodes over the carried bias map. -/
def runWithLearning (eps : List EpisodeData) (horizon step : ℕ)
    (b0 : String → Option ℚ) : String → Option ℚ :=
  eps.foldl (fun b d => runEpisode d horizon step b) b0

/-! ## Centralized path: constraint scheduler model -/

/-- `RunwayGateScheduler.__init__`. -/
structure SchedulerCfg where
  slotMinutes : ℕ
  runwaySepSlots : ℕ
  gateTurnSlots : ℕ
  enableRunwaySep : Bool
  enableGateTurn : Bool
deriving DecidableEq, Repr

/-- `RunwayGateScheduler.__init__`: separation windows are
`max(1, minutes // slot_minutes)`. -/
def mkScheduler (time_slot_minutes runway_sep_minutes gate_turnaround_minutes : ℕ)
    (enable_runway_sep enable_gate_turn : Bool) : SchedulerCfg :=
  ⟨time_slot_minutes,
   max 1 (runway_sep_minutes / time_slot_minutes),
   max 1 (gate_turnaround_minutes / time_slot_minutes),
   enable_runway_sep, enable_gate_turn⟩

/-- `RunwayGateScheduler._time_to_slot`: `int(minute // slot_minutes)`. -/
def timeToSlot (slotMinutes : ℕ) (minute : ℕ) : ℤ :=
  ((minute / slotMinutes : ℕ) : ℤ)

/-- The requested slot column added by `optimize`. -/
def reqSlotOf (m : ℕ) (f : Flight) : ℤ :=
  timeToSlot m f.sched_min

/-- `min_slot = max(0, flights["slot"].min() - 1)` (source assumes a nonempty
flight frame; the `getD` branch is never hit under that assumption). -/
def minSlotB (m : ℕ) (fls : List Flight) : ℤ :=
  max 0 (((fls.map (reqSlotOf m)).min?.getD 0) - 1)

/-- `max_slot = flights["slot"].max() + 1`. -/
def maxSlotB (m : ℕ) (fls : List Flight) : ℤ :=
  ((fls.map (reqSlotOf m)).max?.getD 0) + 1

/-- Candidate slots of one flight: `[s-1, s, s+1]` clipped to
`[min_slot, max_slot]`. -/
def candSlots (m : ℕ) (fls : List Flight) (f : Flight) : List ℤ :=
  [reqSlotOf m f - 1, reqSlotOf m f, reqSlotOf m f + 1].filter
    (fun s => minSlotB m fls ≤ s && s ≤ maxSlotB m fls)

/-- `all_slots = range(min_slot, max_slot + 1)`. -/
def allSlots (m : ℕ) (fls : List Flight) : List ℤ :=
  (List.range (maxSlotB m fls - minSlotB m fls + 1).toNat).map
    (fun (k : ℕ) => minSlotB m fls + (k : ℤ))

/-- `rwy_list = list(runways["runway_id"]) if len(runways) > 0 else ["RWY-1"]`. -/
def rwyListC (runways : List String) : List String :=
  if runways.isEmpty then ["RWY-1"] else runways

/-- `gate_list = list(gates["gate_id"]) if len(gates) > 0 else ["G-1"]`. -/
def gateListC (gates : List Gate) : List String :=
  if gates.isEmpty then ["G-1"] else gates.map (fun g0 => g0.gate_id)

/-- `compat = {gate_id: compatible}; compat.get(k, "NARROW")` (later duplicate
keys of a dict comprehension win, hence the reversed search). -/
def compatLookup (gates : List Gate) (k : String) : AClass :=
  ((gates.reverse.find? (fun g0 => g0.gate_id == k)).map (fun g0 => g0.compatible)).getD .NARROW

/-- The flight's index in the flight frame, as used for the variable keys. -/
def flightAt (fls : List Flight) (i : ℕ) : Flight :=
  fls.getD i default

/-- Whether the binary variable `x[(i, r, s)]` exists: `s` is one of flight
`i`'s candidate slots (the variable family is indexed per flight by its
candidate slots, for every runway). -/
def hasVar (m : ℕ) (fls : List Flight) (i : ℕ) (s : ℤ) : Bool :=
  decide (s ∈ candSlots m fls (flightAt fls i))

/-- Constraint 1: each flight selects exactly one `(runway, slot)` pair from
its candidate set. -/
def rwyExactlyOne (m : ℕ) (fls : List Flight) (rwys : List String)
    (x : ℕ → String → ℤ → Bool) : Prop :=
  ∀ i < fls.length,
    ((rwys.flatMap (fun r => (candSlots m fls (flightAt fls i)).map (fun s => (r, s)))).countP
      (fun p => x i p.1 p.2)) = 1

/-- Constraint 2: each `(runway, slot)` hosts at most one flight. -/
def rwyCapacityOK (m : ℕ) (fls : List Flight) (rwys : List String)
    (x : ℕ → String → ℤ → Bool) : Prop :=
  ∀ r ∈ rwys, ∀ s ∈ allSlots m fls,
    ((List.range fls.length).countP (fun i => hasVar m fls i s && x i r s)) ≤ 1

/-- Constraint 3 (gated on `enable_runway_sep`): for `d in range(1, sep+1)`,
occupancy of a runway at `s` and `s+d` sums to at most 1. -/
def rwySeparationOK (cfg : SchedulerCfg) (fls : List Flight) (rwys : List String)
    (x : ℕ → String → ℤ → Bool) : Prop :=
  ∀ r ∈ rwys, ∀ s ∈ allSlots cfg.slotMinutes fls,
    ∀ d ∈ List.range' 1 cfg.runwaySepSlots,
      (s + d) ∈ allSlots cfg.slotMinutes fls →
      ((List.range fls.length).countP (fun i => hasVar cfg.slotMinutes fls i s && x i r s))
        + ((List.range fls.length).countP
            (fun i => hasVar cfg.slotMinutes fls i (s + d) && x i r (s + d))) ≤ 1

/-- The runway side of the model: constraints 1, 2 and (if enabled) 3. -/
def rwyFeasible (cfg : SchedulerCfg) (fls : List Flight) (rwys : List String)
    (x : ℕ → String → ℤ → Bool) : Prop :=
  rwyExactlyOne cfg.slotMinutes fls rwys x ∧
  rwyCapacityOK cfg.slotMinutes fls rwys x ∧
  (cfg.enableRunwaySep = true → rwySeparationOK cfg fls rwys x)

/-- The pre-fallback compatible gate list of a flight:
`compat.get(k, "NARROW") == aircraft or (compat.get(k, "NARROW") == "WIDE" and aircraft == "NARROW")`. -/
def rawCompatibleGates (gates : List Gate) (ac : AClass) : List String :=
  (gateListC gates).filter
    (fun k => compatLookup gates k == ac || (compatLookup gates k == .WIDE && ac == .NARROW))

/-- The fallback: `if not compatible_gates: compatible_gates = gate_list`. -/
def compatibleGatesFB (gates : List Gate) (ac : AClass) : List String :=
  if (rawCompatibleGates gates ac).isEmpty then gateListC gates
  else rawCompatibleGates gates ac

/-- Constraint 4 per flight: exactly one gate among the (post-fallback)
compatible ones, and every other gate variable is pinned to zero. -/
def perFlightGateOK (gates : List Gate) (ac : AClass) (gi : String → Bool) : Prop :=
  ((compatibleGatesFB gates ac).countP gi = 1) ∧
  (∀ k ∈ gateListC gates, k ∉ compatibleGatesFB gates ac → gi k = false)

/-- Gate capacity: at most one flight *per requested slot bucket* on each gate;
this constraint is built for every gate and slot, independent of the
turnaround enable flag. -/
def gateCapacityOK (m : ℕ) (fls : List Flight) (gates : List Gate)
    (g : ℕ → String → Bool) : Prop :=
  ∀ k ∈ gateListC gates, ∀ s ∈ allSlots m fls,
    ((List.range fls.length).countP
      (fun i => (reqSlotOf m (flightAt fls i) == s) && g i k)) ≤ 1

/-- Turnaround windows (gated on `enable_gate_turn`): for
`d in range(1, turn+1)`, requested-slot occupancy of a gate at `s` and `s+d`
sums to at most 1. -/
def gateTurnOK (cfg : SchedulerCfg) (fls : List Flight) (gates : List Gate)
    (g : ℕ → String → Bool) : Prop :=
  ∀ k ∈ gateListC gates, ∀ s ∈ allSlots cfg.slotMinutes fls,
    ∀ d ∈ List.range' 1 cfg.gateTurnSlots,
      (s + d) ∈ allSlots cfg.slotMinutes fls →
      ((List.range fls.length).countP
          (fun i => (reqSlotOf cfg.slotMinutes (flightAt fls i) == s) && g i k))
        + ((List.range fls.length).countP
            (fun i => (reqSlotOf cfg.slotMinutes (flightAt fls i) == (s + d)) && g i k)) ≤ 1

/-- The gate side of the model: constraints 4, 5 (capacity part), and (if
enabled) the turnaround windows. -/
def gateFeasible (cfg : SchedulerCfg) (fls : List Flight) (gates : List Gate)
    (g : ℕ → String → Bool) : Prop :=
  (∀ i < fls.length, perFlightGateOK gates (flightAt fls i).aircraft (g i)) ∧
  gateCapacityOK cfg.slotMinutes fls gates g ∧
  (cfg.enableGateTurn = true → gateTurnOK cfg fls gates g)

/-- Post-solve extraction of runway rows: for each flight index, runway, and
slot of `all_slots`, emit a row when the variable exists and is set. -/
def extractRunwayRows (m : ℕ) (fls : List Flight) (rwys : List String)
    (x : ℕ → String → ℤ → Bool) : List (String × String × ℤ) :=
  (List.range fls.length).flatMap (fun i =>
    rwys.flatMap (fun r =>
      (allSlots m fls).filterMap (fun s =>
        if hasVar m fls i s && x i r s then some ((flightAt fls i).flight_id, r, s)
        else none)))

/-- Post-solve extraction of gate rows. -/
def extractGateRows (fls : List Flight) (gates : List Gate)
    (g : ℕ → String → Bool) : List (String × String) :=
  (List.range fls.length).flatMap (fun i =>
    (gateListC gates).filterMap (fun k =>
      if g i k then some ((flightAt fls i).flight_id, k) else none))

/-- The objective evaluated at a valuation:
`sum over selected (i, r, s) of |s - slot_i| + delay_i / 10`; `flightDelay`
is the reindexed/filled per-flight delay series keyed by flight index. -/
def objValue (m : ℕ) (fls : List Flight) (rwys : List String)
    (flightDelay : ℕ → ℚ) (x : ℕ → String → ℤ → Bool) : ℚ :=
  ((List.range fls.length).map (fun i =>
    (rwys.map (fun r =>
      ((candSlots m fls (flightAt fls i)).map (fun s =>
        if x i r s then ((s - reqSlotOf m (flightAt fls i)).natAbs : ℚ) + flightDelay i / 10
        else 0)).sum)).sum)).sum

/-- Taxiway conflict extraction: one record per unordered pair of runway rows
sharing the same `(runway, slot)`. -/
def conflictRows : List (String × String × ℤ) → List (String × String × String × ℤ)
  | [] => []
  | a :: rest =>
    (rest.filterMap (fun b =>
      if a.2.1 == b.2.1 && a.2.2 == b.2.2 then some (a.1, b.1, a.2.1, a.2.2) else none))
      ++ conflictRows rest

/-- `pulp.LpStatus`: the solver status code to status string table. -/
def lpStatusStr (c : ℤ) : String :=
  if c = 1 then "Optimal"
  else if c = 0 then "Not Solved"
  else if c = -1 then "Infeasible"
  else if c = -2 then "Unbounded"
  else "Undefined"

/-- The `ScheduleResult` dataclass; `objective_value := none` models the
`float("inf")` sentinel. -/
structure ScheduleResult where
  runway_assignments : List (String × String × ℤ)
  gate_assignments : List (String × String)
  taxiway_conflicts : List (String × String × String × ℤ)
  objective_value : Option ℚ
  status : String

/-- The post-solve tail of `RunwayGateScheduler.optimize` as a pure function of
the inputs, the solver status code, and the variable valuation: extraction is
performed only on status `Optimal`/`Feasible`; the objective is finite only on
status code 1. -/
def optimizeResult (cfg : SchedulerCfg) (fls : List Flight) (runways : List String)
    (gates : List Gate) (flightDelay : ℕ → ℚ) (statusCode : ℤ)
    (x : ℕ → String → ℤ → Bool) (g : ℕ → String → Bool) : ScheduleResult :=
  let m := cfg.slotMinutes
  let statusStr := lpStatusStr statusCode
  let rRows :=
    if statusStr == "Optimal" || statusStr == "Feasible" then
      extractRunwayRows m fls (rwyListC runways) x
    else []
  let gRows :=
    if statusStr == "Optimal" || statusStr == "Feasible" then
      extractGateRows fls gates g
    else []
  { runway_assignments := rRows
    gate_assignments := gRows
    taxiway_conflicts := conflictRows rRows
    objective_value :=
      if statusCode = 1 then some (objValue m fls (rwyListC runways) flightDelay x) else none
    status := statusStr }

/-! ## Specification-side definitions (for refinement comparisons only) -/

/-- Modelled from the spec: the requested minute of §4.3 as written,
`max(0, scheduled_minute + predicted_delay_minutes + bias + weather_extra)`
rounded down to an integer minute, i.e. the floor of the real-valued sum. -/
def specRequestedMinute (schedMin : ℕ) (delay bias wx : ℚ) : ℕ :=
  (max 0 ⌊(schedMin : ℚ) + delay + bias + wx⌋).toNat

/-- Modelled from the spec: the bias increment of §4.3 as written,
`delta_slots × slot_minutes × 0.5` for the configured slot resolution. -/
def specBiasIncrement (slotMinutes : ℕ) (deltaSlots : ℕ) : ℚ :=
  deltaSlots * slotMinutes * (1/2)

/-! ## Helper definitions for stating the claims -/

/-- Projection of the event log to `flight.request` payloads. -/
def reqEvents (l : List Ev) : List (String × String × ℕ × ℕ) :=
  l.filterMap (fun e =>
    match e with
    | .flightReq fid op m t => some (fid, op, m, t)
    | _ => none)

/-- Projection of the event log to `runway.deferred` payloads. -/
def deferredEvents (l : List Ev) : List (String × ℕ × ℕ) :=
  l.filterMap (fun e =>
    match e with
    | .runwayDeferred fid d t => some (fid, d, t)
    | _ => none)

/-- Number of occupancy entries granted to one flight id. -/
def occCount (st : SimState) (f : String) : ℕ :=
  st.occupied.countP (fun e => e.2 == f)

/-- Pointwise monotone evolution of a bias map: every present entry stays
present and never decreases. -/
def BiasMono (b b2 : String → Option ℚ) : Prop :=
  ∀ f v, b f = some v → ∃ v2, b2 f = some v2 ∧ v ≤ v2

/-- Key distinctness of the runway occupancy map (a Python dict cannot hold a
key twice). -/
def occKeysNodup (st : SimState) : Prop :=
  (st.occupied.map (fun e => e.1)).Nodup

/-- The weather extra delay that a tick at time `t` installs: the clamped
sample's rain flag decides between `2.0` and `0.0`. -/
def wxFor (weather : List WeatherSample) (t : ℕ) : ℚ :=
  match weather[min (weather.length - 1) (t / 5)]? with
  | none => 0
  | some w => if w.rain then 2 else 0

/-- The extracted rows of one flight index on one runway. -/
def rwyRowFor (m : ℕ) (fls : List Flight) (x : ℕ → String → ℤ → Bool)
    (i : ℕ) (r : String) : List (String × String × ℤ) :=
  (allSlots m fls).filterMap (fun s =>
    if hasVar m fls i s && x i r s then some ((flightAt fls i).flight_id, r, s) else none)

/-! ## Generic list lemmas -/

theorem reqEvents_append (l1 l2 : List Ev) :
    reqEvents (l1 ++ l2) = reqEvents l1 ++ reqEvents l2 := by
  simp [reqEvents, List.filterMap_append]

theorem deferredEvents_append (l1 l2 : List Ev) :
    deferredEvents (l1 ++ l2) = deferredEvents l1 ++ deferredEvents l2 := by
  simp [deferredEvents, List.filterMap_append]

theorem countP_le_two_of_pair {l : List ℕ} {p : ℕ → Bool} {a b : ℕ}
    (hl : l.Nodup) (h : ∀ x ∈ l, p x → x = a ∨ x = b) :
    l.countP p ≤ 2 := by
  have hsub : l.filter p ⊆ [a, b] := by
    intro x hx
    rcases List.mem_filter.1 hx with ⟨hxl, hpx⟩
    rcases h x hxl hpx with h1 | h1 <;> simp [h1]
  have hnd : (l.filter p).Nodup := hl.filter p
  have hsp : List.Subperm (l.filter p) [a, b] := List.subperm_of_subset hnd hsub
  have := hsp.length_le
  simpa [List.countP_eq_length_filter] using this

theorem two_le_countP_of_two {α : Type} {l : List α} {p : α → Bool} {i j : α}
    (hi : i ∈ l) (hj : j ∈ l) (hij : i ≠ j)
    (hpi : p i) (hpj : p j) : 2 ≤ l.countP p := by
  have hi2 : i ∈ l.filter p := List.mem_filter.2 ⟨hi, hpi⟩
  have hj2 : j ∈ l.filter p := List.mem_filter.2 ⟨hj, hpj⟩
  have hsub : [i, j] ⊆ l.filter p := by
    intro x hx
    rcases List.mem_cons.1 hx with h1 | hx
    · exact h1 ▸ hi2
    rcases List.mem_cons.1 hx with h1 | hx
    · exact h1 ▸ hj2
    · cases hx
  have hnd : ([i, j] : List α).Nodup := by simp [hij]
  have hsp : List.Subperm [i, j] (l.filter p) := List.subperm_of_subset hnd hsub
  have := hsp.length_le
  simpa [List.countP_eq_length_filter] using this

theorem countP_flatMap_eq {α β : Type} (l : List α) (f : α → List β) (p : β → Bool) :
    (l.flatMap f).countP p = (l.map (fun a => (f a).countP p)).sum := by
  induction l with
  | nil => rfl
  | cons a t ih => simp [List.flatMap_cons, List.countP_append, ih]

@[simp] theorem reqEvents_nil : reqEvents [] = [] := rfl

@[simp] theorem deferredEvents_nil : deferredEvents [] = [] := rfl

@[simp] theorem reqEvents_weatherUpd (a : ℚ) (b : Bool) (c : ℕ) :
    reqEvents [.weatherUpd a b c] = [] := rfl

@[simp] theorem reqEvents_runwayAssigned (a b : String) (c d : ℕ) :
    reqEvents [.runwayAssigned a b c d] = [] := rfl

@[simp] theorem reqEvents_runwayDeferred (a : String) (b c : ℕ) :
    reqEvents [.runwayDeferred a b c] = [] := rfl

@[simp] theorem reqEvents_gateAssigned (a b : String) (c d : ℕ) :
    reqEvents [.gateAssigned a b c d] = [] := rfl

@[simp] theorem reqEvents_flightReq (a b : String) (c d : ℕ) :
    reqEvents [.flightReq a b c d] = [(a, b, c, d)] := rfl

@[simp] theorem deferredEvents_weatherUpd (a : ℚ) (b : Bool) (c : ℕ) :
    deferredEvents [.weatherUpd a b c] = [] := rfl

@[simp] theorem deferredEvents_runwayAssigned (a b : String) (c d : ℕ) :
    deferredEvents [.runwayAssigned a b c d] = [] := rfl

@[simp] theorem deferredEvents_gateAssigned (a b : String) (c d : ℕ) :
    deferredEvents [.gateAssigned a b c d] = [] := rfl

@[simp] theorem deferredEvents_flightReq (a b : String) (c d : ℕ) :
    deferredEvents [.flightReq a b c d] = [] := rfl

@[simp] theorem deferredEvents_runwayDeferred (a : String) (b c : ℕ) :
    deferredEvents [.runwayDeferred a b c] = [(a, b, c)] := rfl

/-! ## Field lemmas for the gate handler -/

theorem onRunwayAssigned_occupied (gates : List String) (st : SimState)
    (fid : String) (slot t : ℕ) :
    (onRunwayAssigned gates st fid slot t).occupied = st.occupied := by
  unfold onRunwayAssigned
  split <;> rfl

theorem onRunwayAssigned_bias (gates : List String) (st : SimState)
    (fid : String) (slot t : ℕ) :
    (onRunwayAssigned gates st fid slot t).bias = st.bias := by
  unfold onRunwayAssigned
  split <;> rfl

theorem onRunwayAssigned_wxExtra (gates : List String) (st : SimState)
    (fid : String) (slot t : ℕ) :
    (onRunwayAssigned gates st fid slot t).wxExtra = st.wxExtra := by
  unfold onRunwayAssigned
  split <;> rfl

theorem reqEvents_onRunwayAssigned (gates : List String) (st : SimState)
    (fid : String) (slot t : ℕ) :
    reqEvents (onRunwayAssigned gates st fid slot t).log = reqEvents st.log := by
  unfold onRunwayAssigned
  split
  · rfl
  · simp [reqEvents_append]

theorem deferredEvents_onRunwayAssigned (gates : List String) (st : SimState)
    (fid : String) (slot t : ℕ) :
    deferredEvents (onRunwayAssigned gates st fid slot t).log = deferredEvents st.log := by
  unfold onRunwayAssigned
  split
  · rfl
  · simp [deferredEvents_append]

/-! ## Field lemmas for the request handler -/

theorem onRequest_wxExtra (runways gates : List String) (st : SimState)
    (fid : String) (m t : ℕ) :
    (onRequest runways gates st fid m t).wxExtra = st.wxExtra := by
  unfold onRequest
  split
  · rfl
  · dsimp only
    split <;> simp [onRunwayAssigned_wxExtra]

theorem onRequest_bias_cases (runways gates : List String) (st : SimState)
    (fid : String) (m t : ℕ) :
    (onRequest runways gates st fid m t).bias
      = st.bias ∨
    ∃ d : ℕ, (onRequest runways gates st fid m t).bias = onDeferred st.bias fid d := by
  unfold onRequest
  split
  · exact Or.inl rfl
  · dsimp only
    split
    · exact Or.inr ⟨_, by rw [onRunwayAssigned_bias]⟩
    · exact Or.inl (by rw [onRunwayAssigned_bias])

theorem onRequest_bias_of_ne (runways gates : List String) (st : SimState)
    (fid : String) (m t : ℕ) (f : String) (h : f ≠ fid) :
    (onRequest runways gates st fid m t).bias f = st.bias f := by
  rcases onRequest_bias_cases runways gates st fid m t with h1 | ⟨d, h1⟩
  · rw [h1]
  · rw [h1]
    simp [onDeferred, h]

theorem biasMono_refl (b : String → Option ℚ) : BiasMono b b :=
  fun _ v h => ⟨v, h, le_refl v⟩

theorem biasMono_trans {a b c : String → Option ℚ}
    (h1 : BiasMono a b) (h2 : BiasMono b c) : BiasMono a c := by
  intro f v hv
  obtain ⟨v2, hv2, hle2⟩ := h1 f v hv
  obtain ⟨v3, hv3, hle3⟩ := h2 f v2 hv2
  exact ⟨v3, hv3, le_trans hle2 hle3⟩

theorem biasMono_onDeferred (b : String → Option ℚ) (fid : String) (d : ℕ) :
    BiasMono b (onDeferred b fid d) := by
  intro f v hv
  unfold onDeferred
  by_cases hf : f = fid
  · subst hf
    refine ⟨v + d * 5 * (1/2), by simp [hv], ?_⟩
    have : (0 : ℚ) ≤ d * 5 * (1/2) := by positivity
    linarith
  · exact ⟨v, by simp [hf, hv], le_refl v⟩

theorem onRequest_biasMono (runways gates : List String) (st : SimState)
    (fid : String) (m t : ℕ) :
    BiasMono st.bias (onRequest runways gates st fid m t).bias := by
  rcases onRequest_bias_cases runways gates st fid m t with h1 | ⟨d, h1⟩
  · rw [h1]; exact biasMono_refl _
  · rw [h1]; exact biasMono_onDeferred st.bias fid d

theorem reqEvents_onRequest (runways gates : List String) (st : SimState)
    (fid : String) (m t : ℕ) :
    reqEvents (onRequest runways gates st fid m t).log = reqEvents st.log := by
  unfold onRequest
  split
  · rfl
  · dsimp only
    split
    · rw [reqEvents_append, reqEvents_onRunwayAssigned]
      simp [reqEvents_append]
    · rw [reqEvents_onRunwayAssigned]
      simp [reqEvents_append]

theorem isFree_iff (occ : List ((ℕ × String) × String)) (k : ℕ × String) :
    isFree occ k = true ↔ ∀ e ∈ occ, e.1 ≠ k := by
  simp [isFree]

theorem onRequest_occupied_cases (runways gates : List String) (st : SimState)
    (fid : String) (m t : ℕ) :
    (onRequest runways gates st fid m t).occupied = st.occupied ∨
    ∃ k, isFree st.occupied k = true ∧
      (onRequest runways gates st fid m t).occupied = st.occupied ++ [(k, fid)] := by
  unfold onRequest
  split
  · exact Or.inl rfl
  · rename_i s r heq
    refine Or.inr ⟨(s, r), List.find?_some heq, ?_⟩
    dsimp only
    split <;> simp [onRunwayAssigned_occupied]

theorem onRequest_occCount_le (runways gates : List String) (st : SimState)
    (fid : String) (m t : ℕ) (f : String) :
    occCount (onRequest runways gates st fid m t) f
      ≤ occCount st f + (if fid == f then 1 else 0) := by
  rcases onRequest_occupied_cases runways gates st fid m t with h1 | ⟨k, _, h1⟩
  · unfold occCount
    rw [h1]
    exact Nat.le_add_right _ _
  · unfold occCount
    rw [h1, List.countP_append, List.countP_singleton]

theorem onRequest_keysNodup (runways gates : List String) (st : SimState)
    (fid : String) (m t : ℕ) (h : occKeysNodup st) :
    occKeysNodup (onRequest runways gates st fid m t) := by
  rcases onRequest_occupied_cases runways gates st fid m t with h1 | ⟨k, hfree, h1⟩
  · unfold occKeysNodup
    rw [h1]
    exact h
  · unfold occKeysNodup at h ⊢
    rw [h1, List.map_append]
    have hk : k ∉ st.occupied.map (fun e => e.1) := by
      intro hmem
      obtain ⟨e, he, hek⟩ := List.mem_map.1 hmem
      exact ((isFree_iff _ _).1 hfree e he) hek
    simp [List.nodup_append, h, hk]

/-! ## Field lemmas for one flight iteration and the per-tick folds -/

theorem processFlight_wxExtra (delays : String → Option ℚ) (runways gates : List String)
    (t : ℕ) (st : SimState) (fl : Flight) :
    (processFlight delays runways gates t st fl).wxExtra = st.wxExtra := by
  unfold processFlight
  rw [onRequest_wxExtra]

theorem processFlight_bias_of_ne (delays : String → Option ℚ) (runways gates : List String)
    (t : ℕ) (st : SimState) (fl : Flight) (f : String) (h : f ≠ fl.flight_id) :
    (processFlight delays runways gates t st fl).bias f = st.bias f := by
  unfold processFlight
  rw [onRequest_bias_of_ne _ _ _ _ _ _ _ h]

theorem processFlight_biasMono (delays : String → Option ℚ) (runways gates : List String)
    (t : ℕ) (st : SimState) (fl : Flight) :
    BiasMono st.bias (processFlight delays runways gates t st fl).bias := by
  unfold processFlight
  exact onRequest_biasMono runways gates
    { st with log := st.log ++ [.flightReq fl.flight_id fl.op (reqMinuteOf delays st fl) t] }
    fl.flight_id (reqMinuteOf delays st fl) t

theorem processFlight_occCount_le (delays : String → Option ℚ) (runways gates : List String)
    (t : ℕ) (st : SimState) (fl : Flight) (f : String) :
    occCount (processFlight delays runways gates t st fl) f
      ≤ occCount st f + (if fl.flight_id == f then 1 else 0) := by
  unfold processFlight
  exact onRequest_occCount_le _ _ _ _ _ _ _

theorem processFlight_keysNodup (delays : String → Option ℚ) (runways gates : List String)
    (t : ℕ) (st : SimState) (fl : Flight) (h : occKeysNodup st) :
    occKeysNodup (processFlight delays runways gates t st fl) := by
  unfold processFlight
  exact onRequest_keysNodup _ _ _ _ _ _ h

theorem reqEvents_processFlight (delays : String → Option ℚ) (runways gates : List String)
    (t : ℕ) (st : SimState) (fl : Flight) :
    reqEvents (processFlight delays runways gates t st fl).log
      = reqEvents st.log ++ [(fl.flight_id, fl.op, reqMinuteOf delays st fl, t)] := by
  unfold processFlight
  rw [reqEvents_onRequest]
  simp [reqEvents_append]

theorem foldl_processFlight_wxExtra (delays : String → Option ℚ)
    (runways gates : List String) (t : ℕ) (L : List Flight) :
    ∀ st : SimState,
      (L.foldl (processFlight delays runways gates t) st).wxExtra = st.wxExtra := by
  induction L with
  | nil => intro st; rfl
  | cons a L ih =>
    intro st
    rw [List.foldl_cons, ih, processFlight_wxExtra]

theorem foldl_processFlight_biasMono (delays : String → Option ℚ)
    (runways gates : List String) (t : ℕ) (L : List Flight) :
    ∀ st : SimState,
      BiasMono st.bias (L.foldl (processFlight delays runways gates t) st).bias := by
  induction L with
  | nil => intro st; exact biasMono_refl _
  | cons a L ih =>
    intro st
    rw [List.foldl_cons]
    exact biasMono_trans (processFlight_biasMono delays runways gates t st a) (ih _)

theorem foldl_processFlight_bias_of_ne (delays : String → Option ℚ)
    (runways gates : List String) (t : ℕ) (L : List Flight) (f : String) :
    ∀ st : SimState, (∀ fl ∈ L, f ≠ fl.flight_id) →
      (L.foldl (processFlight delays runways gates t) st).bias f = st.bias f := by
  induction L with
  | nil => intro st _; rfl
  | cons a L ih =>
    intro st h
    rw [List.foldl_cons, ih _ (fun fl hfl => h fl (List.mem_cons_of_mem a hfl)),
      processFlight_bias_of_ne _ _ _ _ _ _ _ (h a (List.mem_cons_self a L))]

theorem foldl_processFlight_occCount_le (delays : String → Option ℚ)
    (runways gates : List String) (t : ℕ) (L : List Flight) (f : String) :
    ∀ st : SimState,
      occCount (L.foldl (processFlight delays runways gates t) st) f
        ≤ occCount st f + L.countP (fun fl => fl.flight_id == f) := by
  induction L with
  | nil => intro st; simp
  | cons a L ih =>
    intro st
    rw [List.foldl_cons, List.countP_cons]
    calc occCount (L.foldl (processFlight delays runways gates t)
            (processFlight delays runways gates t st a)) f
        ≤ occCount (processFlight delays runways gates t st a) f
            + L.countP (fun fl => fl.flight_id == f) := ih _
      _ ≤ occCount st f + (if a.flight_id == f then 1 else 0)
            + L.countP (fun fl => fl.flight_id == f) :=
          Nat.add_le_add_right (processFlight_occCount_le delays runways gates t st a f) _
      _ = occCount st f + (L.countP (fun fl => fl.flight_id == f)
            + if a.flight_id == f then 1 else 0) := by omega

theorem foldl_processFlight_keysNodup (delays : String → Option ℚ)
    (runways gates : List String) (t : ℕ) (L : List Flight) :
    ∀ st : SimState, occKeysNodup st →
      occKeysNodup (L.foldl (processFlight delays runways gates t) st) := by
  induction L with
  | nil => intro st h; exact h
  | cons a L ih =>
    intro st h
    rw [List.foldl_cons]
    exact ih _ (processFlight_keysNodup delays runways gates t st a h)

theorem foldl_processFlight_reqEvents (delays : String → Option ℚ)
    (runways gates : List String) (t : ℕ) (L : List Flight)
    (hnd : L.Pairwise (fun a b => a.flight_id ≠ b.flight_id)) :
    ∀ st : SimState,
      reqEvents (L.foldl (processFlight delays runways gates t) st).log
        = reqEvents st.log
          ++ L.map (fun fl => (fl.flight_id, fl.op, reqMinuteOf delays st fl, t)) := by
  induction L with
  | nil => intro st; simp
  | cons a L ih =>
    intro st
    rw [List.foldl_cons, List.map_cons]
    have hpair := List.pairwise_cons.1 hnd
    rw [ih hpair.2 _, reqEvents_processFlight]
    have hmap : L.map (fun fl =>
        (fl.flight_id, fl.op, reqMinuteOf delays (processFlight delays runways gates t st a) fl, t))
        = L.map (fun fl => (fl.flight_id, fl.op, reqMinuteOf delays st fl, t)) := by
      apply List.map_congr_left
      intro fl hfl
      have hne : fl.flight_id ≠ a.flight_id := fun hEq => hpair.1 fl hfl hEq.symm
      unfold reqMinuteOf
      rw [processFlight_bias_of_ne _ _ _ _ _ _ _ hne, processFlight_wxExtra]
    rw [hmap]
    simp

/-! ## Field lemmas for the weather step and whole ticks -/

theorem weatherStep_occupied (weather : List WeatherSample) (t : ℕ) (st : SimState) :
    (weatherStep weather t st).occupied = st.occupied := by
  unfold weatherStep
  split <;> rfl

theorem weatherStep_bias (weather : List WeatherSample) (t : ℕ) (st : SimState) :
    (weatherStep weather t st).bias = st.bias := by
  unfold weatherStep
  split <;> rfl

theorem reqEvents_weatherStep (weather : List WeatherSample) (t : ℕ) (st : SimState) :
    reqEvents (weatherStep weather t st).log = reqEvents st.log := by
  unfold weatherStep
  split
  · rfl
  · simp [reqEvents_append]

theorem weatherStep_wxExtra (weather : List WeatherSample) (t : ℕ) (st : SimState)
    (h : weather ≠ []) :
    (weatherStep weather t st).wxExtra = wxFor weather t := by
  have hlt : min (weather.length - 1) (t / 5) < weather.length := by
    have := List.length_pos.2 h
    omega
  unfold weatherStep wxFor
  rw [List.getElem?_eq_getElem hlt]

theorem weatherStep_keysNodup (weather : List WeatherSample) (t : ℕ) (st : SimState)
    (h : occKeysNodup st) : occKeysNodup (weatherStep weather t st) := by
  unfold occKeysNodup
  rw [weatherStep_occupied]
  exact h

theorem weatherStep_occCount (weather : List WeatherSample) (t : ℕ) (st : SimState)
    (f : String) : occCount (weatherStep weather t st) f = occCount st f := by
  unfold occCount
  rw [weatherStep_occupied]

theorem simTick_biasMono (flights : List Flight) (delays : String → Option ℚ)
    (weather : List WeatherSample) (runways gates : List String) (t : ℕ) (st : SimState) :
    BiasMono st.bias (simTick flights delays weather runways gates t st).bias := by
  unfold simTick flightStep
  have h1 := foldl_processFlight_biasMono delays runways gates t
    (flights.filter (inWindow t)) (weatherStep weather t st)
  rwa [weatherStep_bias] at h1

theorem simTick_keysNodup (flights : List Flight) (delays : String → Option ℚ)
    (weather : List WeatherSample) (runways gates : List String) (t : ℕ) (st : SimState)
    (h : occKeysNodup st) :
    occKeysNodup (simTick flights delays weather runways gates t st) := by
  unfold simTick flightStep
  exact foldl_processFlight_keysNodup delays runways gates t _ _
    (weatherStep_keysNodup weather t st h)

theorem simTick_occCount_le (flights : List Flight) (delays : String → Option ℚ)
    (weather : List WeatherSample) (runways gates : List String) (t : ℕ) (st : SimState)
    (f : String) :
    occCount (simTick flights delays weather runways gates t st) f
      ≤ occCount st f + (flights.filter (inWindow t)).countP (fun fl => fl.flight_id == f) := by
  unfold simTick flightStep
  calc occCount ((flights.filter (inWindow t)).foldl
          (processFlight delays runways gates t) (weatherStep weather t st)) f
      ≤ occCount (weatherStep weather t st) f
          + (flights.filter (inWindow t)).countP (fun fl => fl.flight_id == f) :=
        foldl_processFlight_occCount_le delays runways gates t _ f _
    _ = occCount st f + (flights.filter (inWindow t)).countP (fun fl => fl.flight_id == f) := by
        rw [weatherStep_occCount]

theorem foldl_simTick_biasMono (flights : List Flight) (delays : String → Option ℚ)
    (weather : List WeatherSample) (runways gates : List String) (ts : List ℕ) :
    ∀ st : SimState,
      BiasMono st.bias
        ((ts.foldl (fun st t => simTick flights delays weather runways gates t st) st).bias) := by
  induction ts with
  | nil => intro st; exact biasMono_refl _
  | cons a ts ih =>
    intro st
    rw [List.foldl_cons]
    exact biasMono_trans (simTick_biasMono flights delays weather runways gates a st) (ih _)

theorem foldl_simTick_keysNodup (flights : List Flight) (delays : String → Option ℚ)
    (weather : List WeatherSample) (runways gates : List String) (ts : List ℕ) :
    ∀ st : SimState, occKeysNodup st →
      occKeysNodup
        (ts.foldl (fun st t => simTick flights delays weather runways gates t st) st) := by
  induction ts with
  | nil => intro st h; exact h
  | cons a ts ih =>
    intro st h
    rw [List.foldl_cons]
    exact ih _ (simTick_keysNodup flights delays weather runways gates a st h)

theorem foldl_simTick_occCount_le (flights : List Flight) (delays : String → Option ℚ)
    (weather : List WeatherSample) (runways gates : List String) (ts : List ℕ) (f : String) :
    ∀ st : SimState,
      occCount (ts.foldl (fun st t => simTick flights delays weather runways gates t st) st) f
        ≤ occCount st f
          + (ts.map (fun t =>
              (flights.filter (inWindow t)).countP (fun fl => fl.flight_id == f))).sum := by
  induction ts with
  | nil => intro st; simp
  | cons a ts ih =>
    intro st
    rw [List.foldl_cons, List.map_cons, List.sum_cons]
    calc occCount (ts.foldl (fun st t => simTick flights delays weather runways gates t st)
            (simTick flights delays weather runways gates a st)) f
        ≤ occCount (simTick flights delays weather runways gates a st) f
            + (ts.map (fun t =>
                (flights.filter (inWindow t)).countP (fun fl => fl.flight_id == f))).sum := ih _
      _ ≤ occCount st f
            + (flights.filter (inWindow a)).countP (fun fl => fl.flight_id == f)
            + (ts.map (fun t =>
                (flights.filter (inWindow t)).countP (fun fl => fl.flight_id == f))).sum :=
          Nat.add_le_add_right (simTick_occCount_le flights delays weather runways gates a st f) _
      _ = _ := by omega

/-! ## Counting helpers for the tick windows -/

theorem countP_eq_sum_ite {α : Type} (l : List α) (p : α → Bool) :
    l.countP p = (l.map (fun x => if p x then 1 else 0)).sum := by
  induction l with
  | nil => rfl
  | cons a l ih => simp [List.countP_cons, ih]; omega

theorem sum_map_add_distrib {α : Type} (l : List α) (f g : α → ℕ) :
    (l.map (fun x => f x + g x)).sum = (l.map f).sum + (l.map g).sum := by
  induction l with
  | nil => rfl
  | cons a l ih => simp [ih]; omega

theorem sum_map_ite_const {α : Type} (l : List α) (p : α → Bool) (c : ℕ) :
    (l.map (fun x => if p x then c else 0)).sum = c * l.countP p := by
  induction l with
  | nil => simp
  | cons a l ih =>
    by_cases h : p a <;> simp [List.countP_cons, h, ih] <;> ring

theorem sum_countP_swap (ts : List ℕ) (fls : List Flight) (p : ℕ → Flight → Bool) :
    (ts.map (fun t => fls.countP (p t))).sum
      = (fls.map (fun fl => ts.countP (fun t => p t fl))).sum := by
  induction fls with
  | nil => simp
  | cons a fls ih =>
    have h1 : ∀ t, (a :: fls).countP (p t) = fls.countP (p t) + (if p t a then 1 else 0) := by
      intro t
      rw [List.countP_cons]
    calc (ts.map (fun t => (a :: fls).countP (p t))).sum
        = (ts.map (fun t => fls.countP (p t) + (if p t a then 1 else 0))).sum := by
          exact congrArg List.sum (List.map_congr_left (fun t _ => h1 t))
      _ = (ts.map (fun t => fls.countP (p t))).sum
            + (ts.map (fun t => if p t a then 1 else 0)).sum :=
          sum_map_add_distrib ts _ _
      _ = (fls.map (fun fl => ts.countP (fun t => p t fl))).sum + ts.countP (fun t => p t a) := by
          rw [ih, countP_eq_sum_ite ts]
      _ = _ := by
          rw [List.map_cons, List.sum_cons]
          omega

theorem ticks_window_le_two (s horizon : ℕ) :
    (pyRange horizon 5).countP (fun t => t ≤ s && s < t + 10) ≤ 2 := by
  unfold pyRange
  rw [List.countP_map]
  apply countP_le_two_of_pair (a := s / 5) (b := s / 5 - 1) (List.nodup_range _)
  intro k _ hk
  simp only [Function.comp, Bool.and_eq_true, decide_eq_true_eq] at hk
  obtain ⟨h1, h2⟩ := hk
  have hle : k ≤ s / 5 := Nat.le_div_iff_mul_le (by omega) |>.2 h1
  have hlt : s / 5 < k + 2 := by
    apply Nat.div_lt_iff_lt_mul (by omega) |>.2
    omega
  omega

theorem occCount_simRun_le_two (flights : List Flight) (delays : String → Option ℚ)
    (weather : List WeatherSample) (runways : List String) (gates : List Gate)
    (horizon : ℕ) (b : String → Option ℚ) (f : String)
    (h : flights.countP (fun fl => fl.flight_id == f) ≤ 1) :
    occCount (simRun flights delays weather runways gates horizon 5 b) f ≤ 2 := by
  unfold simRun
  have h0 := foldl_simTick_occCount_le flights delays weather
    (runwayAgentRunways runways) (gateAgentGates gates) (pyRange horizon 5) f (seedState b)
  have hseed : occCount (seedState b) f = 0 := rfl
  rw [hseed] at h0
  have hfilter : ∀ t : ℕ,
      (flights.filter (inWindow t)).countP (fun fl => fl.flight_id == f)
        = flights.countP (fun fl => (fl.flight_id == f) && inWindow t fl) := by
    intro t
    rw [List.countP_filter]
  have hswap :
      ((pyRange horizon 5).map (fun t =>
        (flights.filter (inWindow t)).countP (fun fl => fl.flight_id == f))).sum
      = (flights.map (fun fl =>
          (pyRange horizon 5).countP (fun t => (fl.flight_id == f) && inWindow t fl))).sum := by
    rw [List.map_congr_left (fun t _ => hfilter t)]
    exact sum_countP_swap (pyRange horizon 5) flights
      (fun t fl => (fl.flight_id == f) && inWindow t fl)
  have hpt : ∀ fl ∈ flights,
      (pyRange horizon 5).countP (fun t => (fl.flight_id == f) && inWindow t fl)
        ≤ (if fl.flight_id == f then 2 else 0) := by
    intro fl _
    by_cases hf : fl.flight_id == f
    · simp only [hf, Bool.true_and, if_pos]
      have := ticks_window_le_two fl.sched_min horizon
      unfold inWindow
      exact this
    · simp only [hf]
      simp [List.countP_eq_zero]
  have hsum : (flights.map (fun fl =>
      (pyRange horizon 5).countP (fun t => (fl.flight_id == f) && inWindow t fl))).sum
      ≤ (flights.map (fun fl => if fl.flight_id == f then 2 else 0)).sum :=
    List.sum_le_sum hpt
  have hfin : (flights.map (fun fl => if fl.flight_id == f then 2 else 0)).sum
      = 2 * flights.countP (fun fl => fl.flight_id == f) :=
    sum_map_ite_const flights _ 2
  omega

/-! ## Candidate-pair lemmas for the greedy assignment -/

theorem candPairs_mem (s0 : ℕ) (res : List String) (s : ℕ) (r : String) :
    (s, r) ∈ candPairs s0 res ↔ (s = s0 ∨ s = s0 + 1 ∨ s = s0 + 2) ∧ r ∈ res := by
  unfold candPairs
  rw [List.mem_flatMap]
  constructor
  · rintro ⟨s1, hs1, hmem⟩
    obtain ⟨r1, hr1, heq⟩ := List.mem_map.1 hmem
    have h1 : s1 = s := congrArg Prod.fst heq
    have h2 : r1 = r := congrArg Prod.snd heq
    subst h1
    subst h2
    simp only [List.mem_cons, List.not_mem_nil, or_false] at hs1
    exact ⟨by tauto, hr1⟩
  · rintro ⟨hs, hr⟩
    refine ⟨s, ?_, List.mem_map.2 ⟨r, hr, rfl⟩⟩
    simp only [List.mem_cons]
    tauto

theorem onRequest_assigned_occupied (runways gates : List String) (st : SimState)
    (fid : String) (reqMin t : ℕ) (s : ℕ) (r : String)
    (h : (candPairs (reqMin / 5) runways).find? (isFree st.occupied) = some (s, r)) :
    (onRequest runways gates st fid reqMin t).occupied = st.occupied ++ [((s, r), fid)] := by
  unfold onRequest
  rw [h]
  dsimp only
  split <;> simp [onRunwayAssigned_occupied]

theorem onRequest_assigned_deferred (runways gates : List String) (st : SimState)
    (fid : String) (reqMin t : ℕ) (s : ℕ) (r : String)
    (h : (candPairs (reqMin / 5) runways).find? (isFree st.occupied) = some (s, r)) :
    deferredEvents (onRequest runways gates st fid reqMin t).log
      = deferredEvents st.log
        ++ (if reqMin / 5 < s then [(fid, s - reqMin / 5, t)] else []) := by
  unfold onRequest
  rw [h]
  dsimp only
  split
  · rw [deferredEvents_append, deferredEvents_onRunwayAssigned]
    simp [deferredEvents_append]
  · rw [deferredEvents_onRunwayAssigned]
    simp [deferredEvents_append]

/-! ## Episode-level bias lemmas -/

theorem simRun_biasMono (flights : List Flight) (delays : String → Option ℚ)
    (weather : List WeatherSample) (runways : List String) (gates : List Gate)
    (horizon step : ℕ) (b : String → Option ℚ) :
    BiasMono b (simRun flights delays weather runways gates horizon step b).bias := by
  unfold simRun
  exact foldl_simTick_biasMono flights delays weather
    (runwayAgentRunways runways) (gateAgentGates gates) (pyRange horizon step) (seedState b)

theorem runEpisode_biasMono (d : EpisodeData) (horizon step : ℕ) (b : String → Option ℚ) :
    BiasMono b (runEpisode d horizon step b) := by
  intro f v hv
  obtain ⟨v2, hv2, hle⟩ :=
    simRun_biasMono d.flights d.delays d.weather d.runways d.gates horizon step b f v hv
  exact ⟨v2, by simp [runEpisode, pyDictUpdate, hv2], hle⟩

theorem runWithLearning_biasMono (eps : List EpisodeData) (horizon step : ℕ) :
    ∀ b0 : String → Option ℚ, BiasMono b0 (runWithLearning eps horizon step b0) := by
  induction eps with
  | nil => intro b0; exact biasMono_refl _
  | cons d eps ih =>
    intro b0
    unfold runWithLearning
    rw [List.foldl_cons]
    exact biasMono_trans (runEpisode_biasMono d horizon step b0) (ih _)

/-! ## Centralized model: slot-grid lemmas -/

theorem mem_allSlots (m : ℕ) (fls : List Flight) (s : ℤ) :
    s ∈ allSlots m fls ↔ minSlotB m fls ≤ s ∧ s ≤ maxSlotB m fls := by
  unfold allSlots
  simp only [List.mem_map, List.mem_range]
  constructor
  · rintro ⟨k, hk, rfl⟩
    omega
  · rintro ⟨h1, h2⟩
    exact ⟨(s - minSlotB m fls).toNat, by omega, by omega⟩

theorem allSlots_nodup (m : ℕ) (fls : List Flight) : (allSlots m fls).Nodup := by
  unfold allSlots
  refine (List.nodup_range _).map ?_
  intro a b h
  dsimp only at h
  omega

theorem candSlots_subset_allSlots (m : ℕ) (fls : List Flight) (f : Flight) (s : ℤ)
    (h : s ∈ candSlots m fls f) : s ∈ allSlots m fls := by
  unfold candSlots at h
  rw [List.mem_filter] at h
  rw [mem_allSlots]
  have := h.2
  simp only [Bool.and_eq_true, decide_eq_true_eq] at this
  exact this

theorem reqSlot_mem_allSlots (m : ℕ) (fls : List Flight) (i : ℕ) (hi : i < fls.length) :
    reqSlotOf m (flightAt fls i) ∈ allSlots m fls := by
  have hmem : flightAt fls i ∈ fls := by
    unfold flightAt
    rw [List.getD_eq_getElem fls default hi]
    exact List.getElem_mem hi
  have hmemMap : reqSlotOf m (flightAt fls i) ∈ fls.map (reqSlotOf m) :=
    List.mem_map.2 ⟨flightAt fls i, hmem, rfl⟩
  have hne : fls.map (reqSlotOf m) ≠ [] := by
    intro hcon
    rw [hcon] at hmemMap
    cases hmemMap
  rcases hmn : (fls.map (reqSlotOf m)).min? with _ | mn
  · exact absurd (List.min?_eq_none_iff.1 hmn) hne
  rcases hmx : (fls.map (reqSlotOf m)).max? with _ | mx
  · exact absurd (List.max?_eq_none_iff.1 hmx) hne
  have hmin : mn ≤ reqSlotOf m (flightAt fls i) :=
    (List.le_min?_iff (fun _ _ _ => le_min_iff) hmn).1 (le_refl mn) _ hmemMap
  have hmax : reqSlotOf m (flightAt fls i) ≤ mx :=
    (List.max?_le_iff (fun _ _ _ => max_le_iff) hmx).1 (le_refl mx) _ hmemMap
  have h0 : (0 : ℤ) ≤ reqSlotOf m (flightAt fls i) := by
    unfold reqSlotOf timeToSlot
    positivity
  rw [mem_allSlots]
  unfold minSlotB maxSlotB
  rw [hmn, hmx]
  constructor
  · simp only [Option.getD_some]
    omega
  · simp only [Option.getD_some]
    omega

theorem extractRunwayRows_eq (m : ℕ) (fls : List Flight) (rwys : List String)
    (x : ℕ → String → ℤ → Bool) :
    extractRunwayRows m fls rwys x
      = (List.range fls.length).flatMap (fun i => rwys.flatMap (fun r => rwyRowFor m fls x i r)) :=
  rfl

theorem nodup_countP_decide_le_one {α : Type} [DecidableEq α] (l : List α)
    (hl : l.Nodup) (a : α) : l.countP (fun y => decide (y = a)) ≤ 1 := by
  induction l with
  | nil => simp
  | cons b l ih =>
    rw [List.countP_cons]
    rcases List.nodup_cons.1 hl with ⟨hb, hl2⟩
    by_cases hba : b = a
    · subst hba
      have h0 : l.countP (fun y => decide (y = b)) = 0 := by
        rw [List.countP_eq_zero]
        intro y hy
        simp only [decide_eq_true_eq]
        intro hEq
        exact hb (hEq ▸ hy)
      simp [h0]
    · have hd : decide (b = a) = false := by simp [hba]
      rw [hd]
      have := ih hl2
      simp only [Bool.false_eq_true, if_false]
      omega

theorem rwyRowFor_countP_le_one (m : ℕ) (fls : List Flight) (x : ℕ → String → ℤ → Bool)
    (i : ℕ) (r : String) (r₀ : String) (s₀ : ℤ) :
    (rwyRowFor m fls x i r).countP
        (fun row => decide (row.2.1 = r₀) && decide (row.2.2 = s₀)) ≤ 1 := by
  have hmono : (rwyRowFor m fls x i r).countP
      (fun row => decide (row.2.1 = r₀) && decide (row.2.2 = s₀))
      ≤ (rwyRowFor m fls x i r).countP (fun row => decide (row.2.2 = s₀)) := by
    apply List.countP_mono_left
    intro row _ h
    exact (Bool.and_eq_true _ _ ▸ h).2
  refine le_trans hmono ?_
  have hmap : (rwyRowFor m fls x i r).countP (fun row => decide (row.2.2 = s₀))
      = ((rwyRowFor m fls x i r).map (fun row => row.2.2)).countP (fun s => decide (s = s₀)) := by
    rw [List.countP_map]
    rfl
  rw [hmap]
  have hproj : (rwyRowFor m fls x i r).map (fun row => row.2.2)
      = (allSlots m fls).filter (fun s => hasVar m fls i s && x i r s) := by
    unfold rwyRowFor
    rw [List.map_filterMap]
    rw [← List.filterMap_eq_filter]
    congr 1
    funext s
    by_cases hc : hasVar m fls i s && x i r s
    · simp [hc, Option.guard]
    · simp [hc, Option.guard]
  rw [hproj, List.countP_filter]
  calc (allSlots m fls).countP (fun s => decide (s = s₀) && (hasVar m fls i s && x i r s))
      ≤ (allSlots m fls).countP (fun s => decide (s = s₀)) := by
        apply List.countP_mono_left
        intro s _ h
        exact (Bool.and_eq_true _ _ ▸ h).1
    _ ≤ 1 := nodup_countP_decide_le_one _ (allSlots_nodup m fls) s₀

theorem rwyRowFor_countP_bound (m : ℕ) (fls : List Flight) (x : ℕ → String → ℤ → Bool)
    (i : ℕ) (r : String) (r₀ : String) (s₀ : ℤ) :
    (rwyRowFor m fls x i r).countP
        (fun row => decide (row.2.1 = r₀) && decide (row.2.2 = s₀))
      ≤ if decide (r = r₀) && (hasVar m fls i s₀ && x i r₀ s₀ && decide (s₀ ∈ allSlots m fls))
          then 1 else 0 := by
  by_cases hC : (decide (r = r₀)
      && (hasVar m fls i s₀ && x i r₀ s₀ && decide (s₀ ∈ allSlots m fls))) = true
  · rw [if_pos hC]
    exact rwyRowFor_countP_le_one m fls x i r r₀ s₀
  · rw [if_neg hC]
    rw [Nat.le_zero, List.countP_eq_zero]
    intro row hrow hp
    obtain ⟨s, hs, hsome⟩ := List.mem_filterMap.1 hrow
    by_cases hcond : (hasVar m fls i s && x i r s) = true
    · rw [if_pos hcond] at hsome
      have hrow_eq : row = ((flightAt fls i).flight_id, r, s) := (Option.some.inj hsome).symm
      subst hrow_eq
      simp only [Bool.and_eq_true, decide_eq_true_eq] at hp
      obtain ⟨hr_eq, hs_eq⟩ := hp
      have hr2 : r = r₀ := hr_eq
      have hs2 : s = s₀ := hs_eq
      subst hr2
      subst hs2
      obtain ⟨hv, hx⟩ := Bool.and_eq_true _ _ ▸ hcond
      apply hC
      simp only [Bool.and_eq_true, decide_eq_true_eq]
      exact ⟨by trivial, ⟨hv, hx⟩, hs⟩
    · rw [if_neg hcond] at hsome
      cases hsome

theorem sum_map_ite_and_const (l : List String) (E : Bool) (r₀ : String) :
    (l.map (fun r => if decide (r = r₀) && E then 1 else 0)).sum
      = if E then l.countP (fun r => decide (r = r₀)) else 0 := by
  cases E
  · simp
  · simp [countP_eq_sum_ite]

theorem nodup_of_countP_le_one {α : Type} [DecidableEq α] {l : List α}
    (h : ∀ a, l.countP (fun y => decide (y = a)) ≤ 1) : l.Nodup := by
  induction l with
  | nil => exact List.nodup_nil
  | cons b l ih =>
    refine List.nodup_cons.2 ⟨?_, ih (fun a => ?_)⟩
    · intro hbl
      have h2 := h b
      rw [List.countP_cons] at h2
      have hpos : 0 < l.countP (fun y => decide (y = b)) := by
        rw [List.countP_pos_iff]
        exact ⟨b, hbl, by simp⟩
      simp only [decide_eq_true_eq, eq_self_iff_true, if_true] at h2
      omega
    · have h2 := h a
      rw [List.countP_cons] at h2
      omega

theorem extractRunwayRows_proj_nodup (m : ℕ) (fls : List Flight) (rwys : List String)
    (x : ℕ → String → ℤ → Bool) (hr : rwys.Nodup)
    (hcap : rwyCapacityOK m fls rwys x) :
    ((extractRunwayRows m fls rwys x).map (fun row => (row.2.1, row.2.2))).Nodup := by
  apply nodup_of_countP_le_one
  intro a
  obtain ⟨r₀, s₀⟩ := a
  rw [List.countP_map]
  refine le_trans (le_of_eq (List.countP_congr
      (q := fun row => decide (row.2.1 = r₀) && decide (row.2.2 = s₀))
      (fun row _ => ?_))) ?_
  · simp [Function.comp, Prod.ext_iff]
  rw [extractRunwayRows_eq, countP_flatMap_eq]
  have hinner : ∀ i : ℕ,
      (rwys.flatMap (rwyRowFor m fls x i)).countP
          (fun row => decide (row.2.1 = r₀) && decide (row.2.2 = s₀))
        ≤ if (hasVar m fls i s₀ && x i r₀ s₀ && decide (s₀ ∈ allSlots m fls))
            then rwys.countP (fun r => decide (r = r₀)) else 0 := by
    intro i
    rw [countP_flatMap_eq]
    calc (rwys.map (fun r => (rwyRowFor m fls x i r).countP
            (fun row => decide (row.2.1 = r₀) && decide (row.2.2 = s₀)))).sum
        ≤ (rwys.map (fun r =>
            if decide (r = r₀)
                && (hasVar m fls i s₀ && x i r₀ s₀ && decide (s₀ ∈ allSlots m fls))
              then 1 else 0)).sum :=
          List.sum_le_sum (fun r _ => rwyRowFor_countP_bound m fls x i r r₀ s₀)
      _ = _ := sum_map_ite_and_const rwys _ r₀
  calc ((List.range fls.length).map (fun i =>
        (rwys.flatMap (rwyRowFor m fls x i)).countP
          (fun row => decide (row.2.1 = r₀) && decide (row.2.2 = s₀)))).sum
      ≤ ((List.range fls.length).map (fun i =>
          if (hasVar m fls i s₀ && x i r₀ s₀ && decide (s₀ ∈ allSlots m fls))
            then rwys.countP (fun r => decide (r = r₀)) else 0)).sum :=
        List.sum_le_sum (fun i _ => hinner i)
    _ = rwys.countP (fun r => decide (r = r₀))
          * (List.range fls.length).countP
              (fun i => hasVar m fls i s₀ && x i r₀ s₀ && decide (s₀ ∈ allSlots m fls)) :=
        sum_map_ite_const _ _ _
    _ ≤ 1 := by
        by_cases hs₀ : s₀ ∈ allSlots m fls
        · by_cases hr₀ : r₀ ∈ rwys
          · have hc : rwys.countP (fun r => decide (r = r₀)) ≤ 1 :=
              nodup_countP_decide_le_one rwys hr r₀
            have hK : (List.range fls.length).countP
                (fun i => hasVar m fls i s₀ && x i r₀ s₀ && decide (s₀ ∈ allSlots m fls))
                = (List.range fls.length).countP
                    (fun i => hasVar m fls i s₀ && x i r₀ s₀) := by
              apply List.countP_congr
              intro i _
              simp [hs₀]
            rw [hK]
            calc rwys.countP (fun r => decide (r = r₀))
                  * (List.range fls.length).countP (fun i => hasVar m fls i s₀ && x i r₀ s₀)
                ≤ 1 * 1 := Nat.mul_le_mul hc (hcap r₀ hr₀ s₀ hs₀)
              _ = 1 := rfl
          · have hc0 : rwys.countP (fun r => decide (r = r₀)) = 0 := by
              rw [List.countP_eq_zero]
              intro r hrm
              simp only [decide_eq_true_eq]
              intro hEq
              exact hr₀ (hEq ▸ hrm)
            rw [hc0]
            simp
        · have hK0 : (List.range fls.length).countP
              (fun i => hasVar m fls i s₀ && x i r₀ s₀ && decide (s₀ ∈ allSlots m fls)) = 0 := by
            rw [List.countP_eq_zero]
            intro i _
            simp [hs₀]
          rw [hK0]
          simp

theorem simRun_keysNodup (flights : List Flight) (delays : String → Option ℚ)
    (weather : List WeatherSample) (runways : List String) (gates : List Gate)
    (horizon step : ℕ) (b : String → Option ℚ) :
    occKeysNodup (simRun flights delays weather runways gates horizon step b) := by
  unfold simRun
  apply foldl_simTick_keysNodup
  unfold occKeysNodup seedState
  simp

theorem simRun_table_proj_nodup (flights : List Flight) (delays : String → Option ℚ)
    (weather : List WeatherSample) (runways : List String) (gates : List Gate)
    (horizon step : ℕ) (b : String → Option ℚ) :
    ((assignmentsTable (simRun flights delays weather runways gates horizon step b)).map
      (fun row => (row.2.1, row.2.2))).Nodup := by
  have hkeys := simRun_keysNodup flights delays weather runways gates horizon step b
  unfold occKeysNodup at hkeys
  unfold assignmentsTable
  rw [List.map_map]
  have h2 : ((fun row : String × String × ℕ => (row.2.1, row.2.2))
        ∘ (fun e : (ℕ × String) × String => (e.2, e.1.2, e.1.1)))
      = Prod.swap ∘ (fun e : (ℕ × String) × String => e.1) := rfl
  rw [h2, ← List.map_map]
  exact hkeys.map Prod.swap_injective

theorem perFlightGate_compat_of_nonempty (gates : List Gate) (ac : AClass)
    (gi : String → Bool) (hok : perFlightGateOK gates ac gi)
    (hne : rawCompatibleGates gates ac ≠ []) :
    ∀ k ∈ gateListC gates, gi k = true →
      (compatLookup gates k = ac ∨ (compatLookup gates k = AClass.WIDE ∧ ac = AClass.NARROW)) := by
  intro k hk hgk
  obtain ⟨hone, hzero⟩ := hok
  have hkc : k ∈ compatibleGatesFB gates ac := by
    by_contra hnc
    rw [hzero k hk hnc] at hgk
    cases hgk
  unfold compatibleGatesFB at hkc
  rw [if_neg (by simpa [List.isEmpty_iff] using hne)] at hkc
  unfold rawCompatibleGates at hkc
  have hp := (List.mem_filter.1 hkc).2
  simp only [Bool.or_eq_true, Bool.and_eq_true, beq_iff_eq] at hp
  exact hp

/-! ## The claims -/

/-- C1 counterexample: the claim says a flight id appears at most once in the
final runway-assignment table of a decentralized run.  With the default
5-minute tick and 10-minute request window, the single flight `FL1` scheduled
at minute 5 is requested at tick 0 and again at tick 5, and the `RunwayAgent`
grants a fresh `(slot, runway)` entry both times, so `FL1` holds two entries. -/
theorem c1_counterexample :
    ¬ ((assignmentsTable (simRun [⟨"FL1", 5, "ARR", AClass.NARROW⟩] (fun _ => none)
        [⟨0, 10, false⟩] ["R1"] [] 10 5 (fun _ => none))).countP
          (fun row => row.1 == "FL1") ≤ 1) := by
  decide

/-- C1 (amended): in the decentralized path with the default 5-minute tick and
the 10-minute request window, a flight id occurring at most once in the flight
list is granted at most **two** `(slot, runway)` entries over a run — one per
tick whose request window `[t, t+10)` contains its scheduled minute — rather
than at most one as claimed. -/
theorem c1_flight_at_most_twice (flights : List Flight) (delays : String → Option ℚ)
    (weather : List WeatherSample) (runways : List String) (gates : List Gate)
    (horizon : ℕ) (b : String → Option ℚ) (f : String)
    (h : flights.countP (fun fl => fl.flight_id == f) ≤ 1) :
    (assignmentsTable (simRun flights delays weather runways gates horizon 5 b)).countP
      (fun row => row.1 == f) ≤ 2 := by
  unfold assignmentsTable
  rw [List.countP_map]
  exact occCount_simRun_le_two flights delays weather runways gates horizon b f h

/-- C1 witness. -/
theorem c1_flight_at_most_twice_witness :
    (([⟨"FL1", 5, "ARR", AClass.NARROW⟩] : List Flight).countP
        (fun fl => fl.flight_id == "FL1") ≤ 1)
    ∧ (assignmentsTable (simRun [⟨"FL1", 5, "ARR", AClass.NARROW⟩] (fun _ => none)
        [⟨0, 10, false⟩] ["R1"] [] 10 5 (fun _ => none))).countP
          (fun row => row.1 == "FL1") ≤ 2 :=
  ⟨by decide,
   c1_flight_at_most_twice [⟨"FL1", 5, "ARR", AClass.NARROW⟩] (fun _ => none)
     [⟨0, 10, false⟩] ["R1"] [] 10 (fun _ => none) "FL1" (by decide)⟩

/-- C2: no two rows of the produced runway-assignment table share the same
(runway id, slot) pair.  Decentralized path: the occupancy map is keyed by
`(slot, runway)`, so the aggregated table projects to pairwise-distinct
`(runway, slot)` pairs, unconditionally.  Centralized path: for any valuation
satisfying the model's constraints (in particular the per-(runway, slot)
capacity constraint), the rows extracted by `optimize` project to
pairwise-distinct `(runway, slot)` pairs, provided the runway id list has no
duplicates. -/
theorem c2_no_duplicate_runway_slot :
    (∀ (flights : List Flight) (delays : String → Option ℚ)
        (weather : List WeatherSample) (runways : List String) (gates : List Gate)
        (horizon step : ℕ) (b : String → Option ℚ),
      ((assignmentsTable (simRun flights delays weather runways gates horizon step b)).map
        (fun row => (row.2.1, row.2.2))).Nodup)
    ∧ (∀ (cfg : SchedulerCfg) (fls : List Flight) (runways : List String)
        (gates : List Gate) (flightDelay : ℕ → ℚ) (statusCode : ℤ)
        (x : ℕ → String → ℤ → Bool) (g : ℕ → String → Bool),
      (rwyListC runways).Nodup →
      rwyFeasible cfg fls (rwyListC runways) x →
      ((optimizeResult cfg fls runways gates flightDelay statusCode x g).runway_assignments.map
        (fun row => (row.2.1, row.2.2))).Nodup) := by
  constructor
  · intro flights delays weather runways gates horizon step b
    exact simRun_table_proj_nodup flights delays weather runways gates horizon step b
  · intro cfg fls runways gates flightDelay statusCode x g hnd hfeas
    unfold optimizeResult
    dsimp only
    split
    · exact extractRunwayRows_proj_nodup cfg.slotMinutes fls (rwyListC runways) x hnd hfeas.2.1
    · simp

/-- C2 witness. -/
theorem c2_no_duplicate_runway_slot_witness :
    ((rwyListC ["R1"]).Nodup
      ∧ rwyFeasible (mkScheduler 5 5 15 false false) [⟨"F1", 0, "ARR", AClass.NARROW⟩]
          (rwyListC ["R1"]) (fun i r s => i == 0 && r == "R1" && s == 0))
    ∧ ((optimizeResult (mkScheduler 5 5 15 false false) [⟨"F1", 0, "ARR", AClass.NARROW⟩]
          ["R1"] [] (fun _ => 0) 1 (fun i r s => i == 0 && r == "R1" && s == 0)
          (fun _ _ => false)).runway_assignments.map
        (fun row => (row.2.1, row.2.2))).Nodup :=
  ⟨⟨by decide,
    by unfold rwyFeasible rwyExactlyOne rwyCapacityOK rwySeparationOK; decide⟩,
   c2_no_duplicate_runway_slot.2 (mkScheduler 5 5 15 false false)
     [⟨"F1", 0, "ARR", AClass.NARROW⟩] ["R1"] [] (fun _ => 0) 1
     (fun i r s => i == 0 && r == "R1" && s == 0) (fun _ _ => false)
     (by decide)
     (by unfold rwyFeasible rwyExactlyOne rwyCapacityOK rwySeparationOK; decide)⟩

/-- C3 counterexample: the claim says the emitted requested minute is the
floor of the real-valued sum `sched + delay + bias + wx`.  At `sched = 7`,
`delay = 3/5`, `bias = 5/2` (one prior deferral), no rain, the code truncates
each term separately and emits minute 9, while the floor of the sum is 10. -/
theorem c3_counterexample :
    reqEvents ((simTick [⟨"FL1", 7, "ARR", AClass.NARROW⟩]
        (fun f => if f = "FL1" then some (3/5) else none)
        [⟨0, 10, false⟩] ["R1"] ["G-1"] 0
        (seedState (fun f => if f = "FL1" then some (5/2) else none))).log)
      ≠ [("FL1", "ARR", specRequestedMinute 7 (3/5) (5/2) 0, 0)] := by
  with_unfolding_all decide

/-- C3 (amended): each tick, after the weather update, the `FlightAgent` emits
one `flight.request` per flight whose scheduled minute lies in `[t, t+10)`, in
list order, with requested minute
`max(0, sched + int(delay) + int(bias) + int(wx))` where each term is
truncated toward zero *separately* (not the floor of the real-valued sum), and
where the weather extra is 2 if the tick's clamped weather sample reports rain
and 0 otherwise. -/
theorem c3_effective_request (flights : List Flight) (delays : String → Option ℚ)
    (weather : List WeatherSample) (runways gates : List String) (t : ℕ) (st : SimState)
    (hw : weather ≠ []) (hnd : (flights.map (fun fl => fl.flight_id)).Nodup) :
    reqEvents (simTick flights delays weather runways gates t st).log
      = reqEvents st.log
        ++ (flights.filter (inWindow t)).map (fun fl =>
            (fl.flight_id, fl.op,
              requestedMinute fl.sched_min ((delays fl.flight_id).getD 0)
                ((st.bias fl.flight_id).getD 0) (wxFor weather t), t)) := by
  unfold simTick flightStep
  have hpair : (flights.filter (inWindow t)).Pairwise
      (fun a b => a.flight_id ≠ b.flight_id) := by
    have h1 : flights.Pairwise (fun a b => a.flight_id ≠ b.flight_id) :=
      List.pairwise_map.mp hnd
    exact h1.sublist (List.filter_sublist flights)
  rw [foldl_processFlight_reqEvents delays runways gates t _ hpair
    (weatherStep weather t st)]
  rw [reqEvents_weatherStep]
  congr 1
  apply List.map_congr_left
  intro fl _
  unfold reqMinuteOf
  rw [weatherStep_bias, weatherStep_wxExtra weather t st hw]

/-- C3 witness. -/
theorem c3_effective_request_witness :
    (([⟨0, 10, false⟩] : List WeatherSample) ≠ []
      ∧ (([⟨"FL1", 7, "ARR", AClass.NARROW⟩] : List Flight).map
          (fun fl => fl.flight_id)).Nodup)
    ∧ reqEvents (simTick [⟨"FL1", 7, "ARR", AClass.NARROW⟩]
          (fun f => if f = "FL1" then some (3/5) else none)
          [⟨0, 10, false⟩] ["R1"] ["G-1"] 0
          (seedState (fun f => if f = "FL1" then some (5/2) else none))).log
        = reqEvents (seedState (fun f => if f = "FL1" then some (5/2) else none)).log
          ++ (([⟨"FL1", 7, "ARR", AClass.NARROW⟩] : List Flight).filter (inWindow 0)).map
              (fun fl =>
                (fl.flight_id, fl.op,
                  requestedMinute fl.sched_min
                    (((fun f => if f = "FL1" then some ((3:ℚ)/5) else none) fl.flight_id).getD 0)
                    (((seedState (fun f => if f = "FL1" then some ((5:ℚ)/2) else none)).bias
                        fl.flight_id).getD 0)
                    (wxFor [⟨0, 10, false⟩] 0), 0)) :=
  ⟨⟨by decide, by decide⟩,
   c3_effective_request [⟨"FL1", 7, "ARR", AClass.NARROW⟩]
     (fun f => if f = "FL1" then some (3/5) else none)
     [⟨0, 10, false⟩] ["R1"] ["G-1"] 0
     (seedState (fun f => if f = "FL1" then some (5/2) else none))
     (by decide) (by decide)⟩

/-- C4 counterexample: the claim says one deferred slot increases the bias by
`delta_slots × slot_minutes × 0.5` for the *configured* slot resolution.  With
a configuration whose slot resolution is 10 minutes, the spec formula gives 5
minutes for a one-slot deferral, but the handler hardcodes the factor 5 and
adds only 5/2. -/
theorem c4_counterexample :
    (onDeferred (fun _ => none) "FL1" 1) "FL1" = some (5/2)
    ∧ specBiasIncrement ({ time_slot_minutes := 10 } : Config).time_slot_minutes 1 = 5
    ∧ ((5 : ℚ)/2 ≠ 5) := by
  refine ⟨by with_unfolding_all decide, ?_, by norm_num⟩
  unfold specBiasIncrement
  norm_num

/-- C4 (amended): when a request is granted a strictly later slot, the
`runway.deferred` cascade increases the requesting flight's bias by exactly
`delta_slots × 5 × 0.5` minutes, with the slot duration hardcoded to 5; this
equals the spec's `delta_slots × slot_minutes × 0.5` only for the default
configuration's 5-minute slot resolution. -/
theorem c4_bias_increment (runways gates : List String) (st : SimState)
    (fid : String) (reqMin t : ℕ) (s : ℕ) (r : String)
    (h : (candPairs (reqMin / 5) runways).find? (isFree st.occupied) = some (s, r))
    (hs : reqMin / 5 < s) :
    (onRequest runways gates st fid reqMin t).bias fid
      = some ((st.bias fid).getD 0 + ((s - reqMin / 5 : ℕ) : ℚ) * 5 * (1/2))
    ∧ (((s - reqMin / 5 : ℕ) : ℚ) * 5 * (1/2)
        = specBiasIncrement ({} : Config).time_slot_minutes (s - reqMin / 5)) := by
  constructor
  · unfold onRequest
    rw [h]
    dsimp only
    rw [if_pos hs]
    simp [onDeferred, onRunwayAssigned_bias]
  · unfold specBiasIncrement
    norm_num

/-- C4 witness. -/
theorem c4_bias_increment_witness :
    ((candPairs (5 / 5) ["R1"]).find?
        (isFree ((⟨fun _ => none, 0, [((1, "R1"), "X")], [], []⟩ : SimState).occupied))
      = some (2, "R1") ∧ 5 / 5 < 2)
    ∧ (onRequest ["R1"] ["G-1"] ⟨fun _ => none, 0, [((1, "R1"), "X")], [], []⟩
        "FL1" 5 0).bias "FL1"
      = some (((⟨fun _ => none, 0, [((1, "R1"), "X")], [], []⟩ : SimState).bias "FL1").getD 0
          + ((2 - 5 / 5 : ℕ) : ℚ) * 5 * (1/2)) :=
  ⟨⟨by decide, by decide⟩,
   (c4_bias_increment ["R1"] ["G-1"] ⟨fun _ => none, 0, [((1, "R1"), "X")], [], []⟩
     "FL1" 5 0 2 "R1" (by decide) (by decide)).1⟩

/-- C5: when `RunwayAgent.on_request` assigns, the granted pair is the first
free candidate in the ordered window `{req, req+1, req+2} × runways` (slots
outermost, runways in fixed list order), hence the granted slot is never
earlier than the requested slot and at most two slots later; the occupancy
gains exactly that entry; and a `runway.deferred` event with
`delta_slots = granted − requested` is emitted exactly when the granted slot
is strictly later than requested. -/
theorem c5_greedy_first_free (runways gates : List String) (st : SimState)
    (fid : String) (reqMin t : ℕ) (s : ℕ) (r : String)
    (h : (candPairs (reqMin / 5) runways).find? (isFree st.occupied) = some (s, r)) :
    reqMin / 5 ≤ s ∧ s ≤ reqMin / 5 + 2 ∧ isFree st.occupied (s, r) = true
    ∧ (∃ l1 l2, candPairs (reqMin / 5) runways = l1 ++ (s, r) :: l2
        ∧ ∀ p ∈ l1, isFree st.occupied p = false)
    ∧ (onRequest runways gates st fid reqMin t).occupied = st.occupied ++ [((s, r), fid)]
    ∧ deferredEvents (onRequest runways gates st fid reqMin t).log
        = deferredEvents st.log
          ++ (if reqMin / 5 < s then [(fid, s - reqMin / 5, t)] else []) := by
  obtain ⟨hp, l1, l2, hsplit, hall⟩ := List.find?_eq_some.1 h
  have hmem : (s, r) ∈ candPairs (reqMin / 5) runways := by
    rw [hsplit]
    exact List.mem_append_right l1 (List.mem_cons_self _ _)
  obtain ⟨hslot, _⟩ := (candPairs_mem (reqMin / 5) runways s r).1 hmem
  refine ⟨?_, ?_, hp, ⟨l1, l2, hsplit, ?_⟩, ?_, ?_⟩
  · rcases hslot with h1 | h1 | h1 <;> omega
  · rcases hslot with h1 | h1 | h1 <;> omega
  · intro p hp1
    have := hall p hp1
    rwa [Bool.not_eq_true'] at this
  · exact onRequest_assigned_occupied runways gates st fid reqMin t s r h
  · exact onRequest_assigned_deferred runways gates st fid reqMin t s r h

/-- C5 witness. -/
theorem c5_greedy_first_free_witness :
    ((candPairs (5 / 5) ["R1"]).find?
        (isFree ((⟨fun _ => none, 0, [((1, "R1"), "X")], [], []⟩ : SimState).occupied))
      = some (2, "R1"))
    ∧ 5 / 5 ≤ 2 :=
  ⟨by decide,
   (c5_greedy_first_free ["R1"] ["G-1"]
     ⟨fun _ => none, 0, [((1, "R1"), "X")], [], []⟩ "FL1" 5 0 2 "R1" (by decide)).1⟩

/-- C6: in the centralized model, a flight with at least one compatible gate
(same class, or a WIDE gate for a NARROW aircraft) can only be assigned a
compatible gate by any valuation satisfying the gate constraints — in
particular a WIDE aircraft is never assigned a NARROW gate; and when the
flight has no compatible gate the per-flight restriction degenerates to
"exactly one gate among all", satisfiable by any single gate choice. -/
theorem c6_gate_compatibility (cfg : SchedulerCfg) (fls : List Flight) (gates : List Gate)
    (g : ℕ → String → Bool) (hfeas : gateFeasible cfg fls gates g)
    (hnd : (gateListC gates).Nodup) (i : ℕ) (hi : i < fls.length) :
    (rawCompatibleGates gates (flightAt fls i).aircraft ≠ [] →
      ∀ k ∈ gateListC gates, g i k = true →
        (compatLookup gates k = (flightAt fls i).aircraft ∨
          (compatLookup gates k = AClass.WIDE ∧ (flightAt fls i).aircraft = AClass.NARROW)))
    ∧ ((flightAt fls i).aircraft = AClass.WIDE →
        rawCompatibleGates gates AClass.WIDE ≠ [] →
        ∀ k ∈ gateListC gates, compatLookup gates k = AClass.NARROW → g i k = false)
    ∧ (rawCompatibleGates gates (flightAt fls i).aircraft = [] →
        ∀ k ∈ gateListC gates,
          perFlightGateOK gates (flightAt fls i).aircraft (fun k2 => k2 == k)) := by
  have hok := hfeas.1 i hi
  have main := perFlightGate_compat_of_nonempty gates (flightAt fls i).aircraft (g i) hok
  refine ⟨main, ?_, ?_⟩
  · intro hW hne k hk hcN
    by_contra hg
    rw [Bool.not_eq_false] at hg
    have := main (by rw [hW]; exact hne) k hk hg
    rcases this with h1 | ⟨h1, h2⟩
    · rw [hcN, hW] at h1
      cases h1
    · rw [hW] at h2
      cases h2
  · intro hraw k hk
    have hfb : compatibleGatesFB gates (flightAt fls i).aircraft = gateListC gates := by
      unfold compatibleGatesFB
      rw [if_pos (by simp [List.isEmpty_iff, hraw])]
    constructor
    · rw [hfb]
      have : (gateListC gates).countP (fun k2 => k2 == k) = (gateListC gates).count k := rfl
      rw [this]
      exact List.count_eq_one_of_mem hnd hk
    · intro k2 hk2 hnotin
      rw [hfb] at hnotin
      exact absurd hk2 hnotin

/-- C6 witness. -/
theorem c6_gate_compatibility_witness :
    (gateFeasible (mkScheduler 5 5 15 false false) [⟨"F1", 0, "ARR", AClass.WIDE⟩]
        [⟨"G1", AClass.WIDE⟩, ⟨"G2", AClass.NARROW⟩]
        (fun i k => i == 0 && k == "G1")
      ∧ (gateListC [⟨"G1", AClass.WIDE⟩, ⟨"G2", AClass.NARROW⟩]).Nodup
      ∧ 0 < ([⟨"F1", 0, "ARR", AClass.WIDE⟩] : List Flight).length
      ∧ (flightAt [⟨"F1", 0, "ARR", AClass.WIDE⟩] 0).aircraft = AClass.WIDE
      ∧ rawCompatibleGates [⟨"G1", AClass.WIDE⟩, ⟨"G2", AClass.NARROW⟩] AClass.WIDE ≠ []
      ∧ "G2" ∈ gateListC [⟨"G1", AClass.WIDE⟩, ⟨"G2", AClass.NARROW⟩]
      ∧ compatLookup [⟨"G1", AClass.WIDE⟩, ⟨"G2", AClass.NARROW⟩] "G2" = AClass.NARROW)
    ∧ (fun (i : ℕ) (k : String) => i == 0 && k == "G1") 0 "G2" = false :=
  ⟨⟨by unfold gateFeasible perFlightGateOK gateCapacityOK gateTurnOK; decide,
    by decide, by decide, by decide, by decide, by decide, by decide⟩,
   (c6_gate_compatibility (mkScheduler 5 5 15 false false) [⟨"F1", 0, "ARR", AClass.WIDE⟩]
     [⟨"G1", AClass.WIDE⟩, ⟨"G2", AClass.NARROW⟩] (fun i k => i == 0 && k == "G1")
     (by unfold gateFeasible perFlightGateOK gateCapacityOK gateTurnOK; decide)
     (by decide) 0 (by decide)).2.1 (by decide) (by decide) "G2" (by decide) (by decide)⟩

/-- C7: whenever the solver status is neither `Optimal` nor `Feasible`, the
post-solve stage of `optimize` returns empty runway and gate assignment
tables, an empty conflict table, the infinite objective sentinel, and the raw
solver status string — it never raises. -/
theorem c7_infeasible_result (cfg : SchedulerCfg) (fls : List Flight)
    (runways : List String) (gates : List Gate) (flightDelay : ℕ → ℚ)
    (statusCode : ℤ) (x : ℕ → String → ℤ → Bool) (g : ℕ → String → Bool)
    (h1 : lpStatusStr statusCode ≠ "Optimal") (h2 : lpStatusStr statusCode ≠ "Feasible") :
    (optimizeResult cfg fls runways gates flightDelay statusCode x g).runway_assignments = []
    ∧ (optimizeResult cfg fls runways gates flightDelay statusCode x g).gate_assignments = []
    ∧ (optimizeResult cfg fls runways gates flightDelay statusCode x g).taxiway_conflicts = []
    ∧ (optimizeResult cfg fls runways gates flightDelay statusCode x g).objective_value = none
    ∧ (optimizeResult cfg fls runways gates flightDelay statusCode x g).status
        = lpStatusStr statusCode := by
  have hA : (lpStatusStr statusCode == "Optimal" || lpStatusStr statusCode == "Feasible")
      = false := by
    rw [Bool.or_eq_false_iff]
    constructor <;> rw [beq_eq_false_iff_ne] <;> assumption
  have hcode : ¬(statusCode = 1) := by
    intro hc
    apply h1
    rw [hc]
    rfl
  unfold optimizeResult
  simp only [hA, Bool.false_eq_true, if_false, if_neg hcode]
  refine ⟨?_, ?_, ?_, ?_, ?_⟩ <;> trivial

/-- C7 witness. -/
theorem c7_infeasible_result_witness :
    (lpStatusStr (-1) ≠ "Optimal" ∧ lpStatusStr (-1) ≠ "Feasible")
    ∧ (optimizeResult (mkScheduler 5 5 15 false false) [] [] [] (fun _ => 0) (-1)
        (fun _ _ _ => false) (fun _ _ => false)).runway_assignments = [] :=
  ⟨⟨by decide, by decide⟩,
   (c7_infeasible_result (mkScheduler 5 5 15 false false) [] [] [] (fun _ => 0) (-1)
     (fun _ _ _ => false) (fun _ _ => false) (by decide) (by decide)).1⟩

/-- C8: across a multi-episode learning run the carried bias map never
shrinks and is pointwise non-decreasing: every flight id present at the start
is still present after any number of episode-end merges, with a value at
least as large; likewise over a single episode boundary. -/
theorem c8_bias_monotone (eps : List EpisodeData) (horizon step : ℕ)
    (b0 : String → Option ℚ) :
    BiasMono b0 (runWithLearning eps horizon step b0)
    ∧ ∀ (d : EpisodeData) (b : String → Option ℚ),
        BiasMono b (runEpisode d horizon step b) := by
  exact ⟨runWithLearning_biasMono eps horizon step b0,
    fun d b => runEpisode_biasMono d horizon step b⟩

/-- C8 witness: a seeded entry survives an empty learning run with its value
intact. -/
theorem c8_bias_monotone_witness :
    ∃ v2, runWithLearning [] 240 5 (fun f => if f = "F1" then some (5/2) else none) "F1"
        = some v2 ∧ (5 : ℚ)/2 ≤ v2 :=
  (c8_bias_monotone [] 240 5 (fun f => if f = "F1" then some (5/2) else none)).1
    "F1" (5/2) (by simp)

/-- C9 counterexample: the claim says every empty runway or gate input list is
substituted with a single synthetic default identifier, including the
decentralized `RunwayAgent`'s runway list — but `RunwayAgent.__init__` stores
the empty list unchanged (no one-element default list). -/
theorem c9_counterexample :
    ¬ ∃ d : String, runwayAgentRunways [] = [d] := by
  rintro ⟨d, hd⟩
  exact List.noConfusion hd

/-- C9 (amended): the empty-list fallback to a single synthetic identifier
holds for the centralized scheduler's runway list (`RWY-1`) and gate list
(`G-1`) and for the decentralized `GateAgent` (`G-1`); the decentralized
`RunwayAgent` instead keeps the list it is given, so with an empty runway
list every `flight.request` is silently dropped, leaving the state
unchanged. -/
theorem c9_default_substitution :
    rwyListC [] = ["RWY-1"]
    ∧ gateListC [] = ["G-1"]
    ∧ gateAgentGates [] = ["G-1"]
    ∧ runwayAgentRunways [] = ([] : List String)
    ∧ ∀ (gates2 : List String) (st : SimState) (fid : String) (reqMin t : ℕ),
        onRequest (runwayAgentRunways []) gates2 st fid reqMin t = st := by
  refine ⟨rfl, rfl, rfl, rfl, ?_⟩
  intro gates2 st fid reqMin t
  rfl

/-- C10: the centralized per-gate per-requested-slot capacity constraint is
part of the model for every value of the turnaround enable flag: any
valuation satisfying the gate constraints never assigns two distinct flights
with the same requested slot to the same gate, whether or not gate-turnaround
enforcement is enabled. -/
theorem c10_gate_capacity_unconditional (cfg : SchedulerCfg) (fls : List Flight)
    (gates : List Gate) (g : ℕ → String → Bool)
    (hfeas : gateFeasible cfg fls gates g) (i j : ℕ)
    (hi : i < fls.length) (hj : j < fls.length) (hij : i ≠ j)
    (hslot : reqSlotOf cfg.slotMinutes (flightAt fls i)
      = reqSlotOf cfg.slotMinutes (flightAt fls j))
    (k : String) (hk : k ∈ gateListC gates) :
    ¬ (g i k = true ∧ g j k = true) := by
  rintro ⟨hgi, hgj⟩
  have hs : reqSlotOf cfg.slotMinutes (flightAt fls i) ∈ allSlots cfg.slotMinutes fls :=
    reqSlot_mem_allSlots cfg.slotMinutes fls i hi
  have hcap := hfeas.2.1 k hk (reqSlotOf cfg.slotMinutes (flightAt fls i)) hs
  have h2 : 2 ≤ (List.range fls.length).countP
      (fun i2 => (reqSlotOf cfg.slotMinutes (flightAt fls i2)
          == reqSlotOf cfg.slotMinutes (flightAt fls i)) && g i2 k) := by
    apply two_le_countP_of_two (List.mem_range.2 hi) (List.mem_range.2 hj) hij
    · simp [hgi]
    · simp [hgj, hslot]
  omega

/-- C10 witness. -/
theorem c10_gate_capacity_unconditional_witness :
    (gateFeasible (mkScheduler 5 5 15 false false)
        [⟨"F1", 0, "ARR", AClass.NARROW⟩, ⟨"F2", 0, "DEP", AClass.NARROW⟩]
        [⟨"G1", AClass.NARROW⟩, ⟨"G2", AClass.NARROW⟩]
        (fun i k => (i == 0 && k == "G1") || (i == 1 && k == "G2"))
      ∧ (0 : ℕ) ≠ 1
      ∧ reqSlotOf 5 (flightAt [⟨"F1", 0, "ARR", AClass.NARROW⟩,
            ⟨"F2", 0, "DEP", AClass.NARROW⟩] 0)
          = reqSlotOf 5 (flightAt [⟨"F1", 0, "ARR", AClass.NARROW⟩,
            ⟨"F2", 0, "DEP", AClass.NARROW⟩] 1)
      ∧ "G1" ∈ gateListC [⟨"G1", AClass.NARROW⟩, ⟨"G2", AClass.NARROW⟩])
    ∧ ¬ ((fun (i : ℕ) (k : String) => (i == 0 && k == "G1") || (i == 1 && k == "G2")) 0 "G1" = true
        ∧ (fun (i : ℕ) (k : String) => (i == 0 && k == "G1") || (i == 1 && k == "G2")) 1 "G1" = true) :=
  ⟨⟨by unfold gateFeasible perFlightGateOK gateCapacityOK gateTurnOK; decide,
    by decide, by decide, by decide⟩,
   c10_gate_capacity_unconditional (mkScheduler 5 5 15 false false)
     [⟨"F1", 0, "ARR", AClass.NARROW⟩, ⟨"F2", 0, "DEP", AClass.NARROW⟩]
     [⟨"G1", AClass.NARROW⟩, ⟨"G2", AClass.NARROW⟩]
     (fun i k => (i == 0 && k == "G1") || (i == 1 && k == "G2"))
     (by unfold gateFeasible perFlightGateOK gateCapacityOK gateTurnOK; decide)
     0 1 (by decide) (by decide) (by decide) (by decide) "G1" (by decide)⟩
